import Mathlib

/-!
# go_rest_usb_api: input handler, frame loop and USB discovery

A shallow embedding of

* `src/input/inputHandler.go` (`setCursor`, `handleConsole`, `HandleInput`),
* `src/app/app.go` (the frame loop of `App`),
* `src/usb/driver.go` (`FindDeviceWithVIDPID`),

followed by theorems about them.

Conventions.

* `float64` quantities are exact rationals (`ℚ`).
* A Go panic is an explicit outcome `Res.panic`, carrying the state reached when
  the panic was raised.
* Pointers passed to `HandleInput` (`camPos`, `camZoom`, `drawHitBox`, the
  command map, the handler itself, the control channel) are fields of one
  `World` record that is threaded through the code.
* Calls into the window are recorded, in order, in `World.events`.
-/

namespace GoRestUsbApi

/-! ## Data model -/

/-- The type pixel.Vec. -/
structure Vec where
  X : ℚ
  Y : ℚ
deriving DecidableEq, Repr

/-- The type pixel.Rect. -/
structure Rect where
  Min : Vec
  Max : Vec
deriving DecidableEq, Repr

/-- The interface pixel.Picture: a sprite sheet, identified by name; the nil interface is
`none`. -/
abbrev Picture := Option String

/-- The type pixel.Sprite, as built by `pixel.NewSprite(pic, frame)`. -/
structure Sprite where
  pic : Picture
  frame : Rect
deriving DecidableEq, Repr

/-- The type assets.ObjectAnimationAsset, with the three fields `inputHandler.go` reads.
`Anims` is a Go `map[string][]pixel.Rect`, kept as an association list read
with `List.lookup`; the nil map is `[]`. -/
structure ObjectAnimationAsset where
  Sheet : Picture
  Anims : List (String × List Rect)
  Description : String
deriving DecidableEq, Repr

/-- The interface assets.IObjectAsset: an element of the asset catalog is either an
animation asset or an asset of another concrete type (for which the type
assertion `.(assets.ObjectAnimationAsset)` panics). -/
inductive IObjectAsset where
  | animation (a : ObjectAnimationAsset)
  | other (description : String)
deriving DecidableEq, Repr

/-- The description of a catalog element. -/
def IObjectAsset.GetDescription : IObjectAsset → String
  | .animation a => a.Description
  | .other d => d

/-- The type assets.ObjectAssets: the asset catalog, a slice. -/
abbrev ObjectAssets := List IObjectAsset

/-- Modelled from the spec: `ObjectAssets.IsDescriptionAvailable` is declared in
package `assets`, which is not among the sources. The spec's asset catalog is
"queried by description string" and "returns a sheet/frame-set ... or indicates
absence": the description is available when some catalog element carries it. -/
def IsDescriptionAvailable (objectAssets : ObjectAssets) (desc : String) : Bool :=
  objectAssets.any (fun a => a.GetDescription == desc)

/-- The function slices.IndexFunc: index of the first element satisfying `f`, or `-1`. -/
def IndexFunc {α : Type} (s : List α) (f : α → Bool) : Int :=
  match s.findIdx? f with
  | some i => (i : Int)
  | none => -1

/-- The keys and buttons `HandleInput` asks the window about. -/
inductive Button where
  | KeyLeftControl | MouseButtonLeft | Key0 | KeyH | KeyA | KeyD | KeyS | KeyW
deriving DecidableEq, Repr

/-- The input state of the `pixelgl.Window` during one tick (it only changes in
`win.Update()`). -/
structure Window where
  MouseInsideWindow : Bool
  Pressed : Button → Bool
  JustPressed : Button → Bool
  JustReleased : Button → Bool
  MousePosition : Vec

/-- The type pixel.Matrix, through the one method used on it. -/
structure Matrix where
  Unproject : Vec → Vec

/-- A control message (`console.ITxTopic`), through `GetTopicId()`. -/
structure ITxTopic where
  GetTopicId : String
deriving DecidableEq, Repr

/-- The type debuglog.Entry. -/
structure Entry where
  Message : String
deriving DecidableEq, Repr

/-- The method Entry.GetMessage. -/
def Entry.GetMessage (e : Entry) : String := e.Message

/-- The type debuglog.Entries. -/
abbrev Entries := List Entry

/-- The deferred operations `HandleInput` puts in the command table; each closes over
the game objects and a position. -/
inductive Command where
  | SelectObjectAtPosition (mouse : Vec)
  | AddObjectAtPosition (objectName : String) (mouse : Vec)
deriving DecidableEq, Repr

/-- The type input.Commands, a Go `map[string]Command`, kept as an association list with
unique keys. -/
abbrev Commands := List (String × Command)

/-- Map assignment `m[k] = v`: an existing entry for `k` is replaced. -/
def Commands.assign (m : Commands) (k : String) (v : Command) : Commands :=
  (k, v) :: m.filter (fun e => e.1 != k)

/-- Constants and helpers the sources use but do not declare. -/
structure Env where
  /-- The constant console.Poke. -/
  Poke : String
  /-- The constant console.Stop. -/
  Stop : String
  /-- The constant input.CursorDesription. -/
  CursorDesription : String
  /-- The rendering of a float by the verb percent-f of fmt. -/
  fmtFloat : ℚ → String
  /-- The value of `ObjectName()` on a freshly built card object. -/
  cardObjectName : String
  /-- The centre of the window bounds. -/
  windowCenter : Vec
  /-- What `win.Closed()` reports on a window that has been destroyed. -/
  closedAfterDestroy : Bool
  /-- The command table as `gameCommands.ExecuteCommands` leaves it. -/
  executeCommands : Commands → Commands

/-- What the program does to the outside, in order. -/
inductive Event where
  | SetMatrix
  | HandleInput
  | SetCursorVisible (visible : Bool)
  | CursorDraw (s : Sprite) (pos : Vec)
  | Printf (s : String)
  | UpdateGUI
  | ExecuteCommands
  | Wait
  | UpdateAllObjects
  | Clear
  | DrawAllObjects
  | DrawGUI
  | Update
  | SetTitle (frames : Nat)
  | ScanLog
  | Sleep (seconds : Nat)
  | Destroy
deriving DecidableEq, Repr

/-- The struct InputHandler. The fields `win`, `cam` and `consoleInput` hold references (the
window, the matrix and the channel live in `World` and in the arguments);
`oldCamZoom` is never read or written by live code. -/
structure InputHandler where
  initialized : Bool
  Cursor : Option Sprite
  CursorAssets : ObjectAnimationAsset
deriving DecidableEq, Repr

/-- The zero value of `InputHandler` (`var inputHandler input.InputHandler`). -/
def InputHandler.zero : InputHandler :=
  { initialized := false, Cursor := none,
    CursorAssets := { Sheet := none, Anims := [], Description := "" } }

/-- Everything `HandleInput` and the frame loop can change. -/
structure World where
  input : InputHandler
  /-- Messages buffered in the control channel, oldest first. -/
  consoleInput : List ITxTopic
  gameCommands : Commands
  camZoom : ℚ
  camPos : Vec
  drawHitBox : Bool
  frames : Nat
  /-- The close flag of the window. -/
  winShouldClose : Bool
  winDestroyed : Bool
  events : List Event

/-- Kinds of run-time panic. -/
inductive Panic where
  | nilDereference
  | indexOutOfRange
  | typeAssertion
deriving DecidableEq, Repr

/-- Outcome of running a piece of code: normal return with a value, or a panic;
both with the state reached. -/
inductive Res (α : Type) where
  | ok (a : α) (w : World)
  | panic (p : Panic) (w : World)

/-- The state an outcome ends in. -/
def Res.world {α : Type} : Res α → World
  | .ok _ w => w
  | .panic _ w => w

/-- Whether the code returned normally. -/
def Res.isOk {α : Type} : Res α → Bool
  | .ok _ _ => true
  | .panic _ _ => false

/-- The returned value, if any. -/
def Res.value? {α : Type} : Res α → Option α
  | .ok a _ => some a
  | .panic _ _ => none

/-- Code acting on the world. -/
def M (α : Type) : Type := World → Res α

/-- Sequencing: a panic ends the computation. -/
def M.bind {α β : Type} (m : M α) (f : α → M β) : M β := fun w =>
  match m w with
  | .ok a w1 => f a w1
  | .panic p w1 => .panic p w1

/-- Normal return. -/
def M.pure {α : Type} (a : α) : M α := fun w => .ok a w

instance : Monad M where
  pure := M.pure
  bind := M.bind

/-- Raise a panic. -/
def throwPanic {α : Type} (p : Panic) : M α := fun w => .panic p w

/-- Read the state. -/
def getWorld : M World := fun w => .ok w w

/-- Change the state. -/
def modifyWorld (f : World → World) : M Unit := fun w => .ok () (f w)

/-- Record a call on the window or on standard output. -/
def emit (e : Event) : M Unit :=
  modifyWorld fun w => { w with events := w.events ++ [e] }

/-! ## `src/input/inputHandler.go` -/

/-- The expression `input.CursorAssets.Anims[input.CursorAssets.Description][i]`; `none` when
the index is out of range (a missing key yields the nil slice). -/
def cursorFrame (a : ObjectAnimationAsset) (i : Nat) : Option Rect :=
  ((a.Anims.lookup a.Description).getD [])[i]?

/-- The method InputHandler.setCursor (lines 27-36). -/
def setCursor (pressed : Bool) : M Unit := do
  let w ← getWorld
  let a := w.input.CursorAssets
  if !pressed then
    match cursorFrame a 0 with
    | some f => modifyWorld fun w => { w with input := { w.input with Cursor := some ⟨a.Sheet, f⟩ } }
    | none => throwPanic .indexOutOfRange
  else
    match cursorFrame a 1 with
    | some f => modifyWorld fun w => { w with input := { w.input with Cursor := some ⟨a.Sheet, f⟩ } }
    | none => throwPanic .indexOutOfRange
  modifyWorld fun w => { w with input := { w.input with initialized := true } }

/-- The non-blocking receive `select { case c := <-input.consoleInput: ... default: }`.
The channel is open for as long as the loop runs (`App` closes it in a deferred
call). -/
def tryReceive : M (Option ITxTopic) := fun w =>
  match w.consoleInput with
  | [] => .ok none w
  | c :: rest => .ok (some c) { w with consoleInput := rest }

/-- The method InputHandler.handleConsole (lines 38-60). -/
def handleConsole (env : Env) (someFlag : Bool) (debugLog : Entries) : M Entries := do
  match ← tryReceive with
  | some consoleCommand =>
    if consoleCommand.GetTopicId = env.Poke then
      let someFlag := !someFlag
      setCursor someFlag
    if consoleCommand.GetTopicId = env.Stop then
      let stopCommand : Entry := { Message := env.Stop }
      pure (debugLog ++ [stopCommand])
    else
      pure debugLog
  | none => pure debugLog

/-- Lines 84-106 of `HandleInput`: the first-call initialization. Returns the
debug log built so far (the named result `debugLog` starts as nil). -/
def initHandler (env : Env) (objectAssets : ObjectAssets) (cursorToggle : Bool) : M Entries := do
  let w ← getWorld
  if !w.input.initialized then
    modifyWorld fun w => { w with camZoom := 578704 / 1000000 }
    let idx := IndexFunc objectAssets
      (fun _ => IsDescriptionAvailable objectAssets env.CursorDesription)
    if idx != -1 then
      match objectAssets[idx.toNat]? with
      | some (.animation a) =>
        modifyWorld fun w => { w with input := { w.input with CursorAssets := a } }
        setCursor cursorToggle
        pure []
      | some (.other _) => throwPanic .typeAssertion
      | none => throwPanic .indexOutOfRange
    else
      let indexError : Entry :=
        { Message := w.input.CursorAssets.Description ++ " is not in assests" }
      emit (.Printf (w.input.CursorAssets.Description ++ " is not in assests"))
      pure [indexError]
  else
    pure []

/-- The call `input.Cursor.Draw(win, ...)`: a nil `Cursor` is dereferenced. -/
def cursorDraw (pos : Vec) : M Unit := do
  let w ← getWorld
  match w.input.Cursor with
  | some s => emit (.CursorDraw s pos)
  | none => throwPanic .nilDereference

/-- Lines 111-119 of `HandleInput`, and again lines 137-145 of `App`. -/
def drawCursor (win : Window) (cam : Matrix) : M Unit := do
  if win.MouseInsideWindow then
    if !win.Pressed .KeyLeftControl then
      emit (.SetCursorVisible false)
      cursorDraw (cam.Unproject win.MousePosition)
  else
    emit (.SetCursorVisible true)

/-- Lines 121-138 of `HandleInput`: pointer buttons and the control key. -/
def handleButtons (env : Env) (win : Window) (cam : Matrix) : M Unit := do
  if win.JustReleased .MouseButtonLeft && !win.Pressed .KeyLeftControl then
    setCursor false
  if win.Pressed .KeyLeftControl then
    setCursor true
    emit (.SetCursorVisible true)
    if win.JustPressed .MouseButtonLeft then
      let mouse := cam.Unproject win.MousePosition
      let key := "SelectObjectAtPosition x:" ++ env.fmtFloat mouse.X ++ ", y:" ++ env.fmtFloat mouse.Y
      modifyWorld fun w =>
        { w with gameCommands := Commands.assign w.gameCommands key (.SelectObjectAtPosition mouse) }
  if win.Pressed .MouseButtonLeft && !win.Pressed .KeyLeftControl then
    setCursor true

/-- Lines 140-149 of `HandleInput`: spawn a card, toggle the hit-box flag. Building the
card object (`card.NewCardObject`, `GetImage`) is taken to succeed. -/
def handleKeys (env : Env) (win : Window) (cam : Matrix) : M Unit := do
  if win.JustPressed .Key0 then
    let mouse := cam.Unproject win.MousePosition
    let key := "AddObjectAtPosition: x:" ++ env.fmtFloat mouse.X ++ ", y:" ++ env.fmtFloat mouse.Y
      ++ ", ObjectType:" ++ env.cardObjectName
    modifyWorld fun w =>
      { w with gameCommands :=
          Commands.assign w.gameCommands key (.AddObjectAtPosition env.cardObjectName mouse) }
  if win.JustPressed .KeyH then
    modifyWorld fun w => { w with drawHitBox := !w.drawHitBox }

/-- Lines 151-163 of `HandleInput`: camera pan. -/
def moveCamera (win : Window) (dt camSpeed : ℚ) : M Unit := do
  if win.Pressed .KeyA then
    modifyWorld fun w => { w with camPos := { w.camPos with X := w.camPos.X - camSpeed * dt } }
  if win.Pressed .KeyD then
    modifyWorld fun w => { w with camPos := { w.camPos with X := w.camPos.X + camSpeed * dt } }
  if win.Pressed .KeyS then
    modifyWorld fun w => { w with camPos := { w.camPos with Y := w.camPos.Y - camSpeed * dt } }
  if win.Pressed .KeyW then
    modifyWorld fun w => { w with camPos := { w.camPos with Y := w.camPos.Y + camSpeed * dt } }

/-- The method InputHandler.HandleInput (lines 64-176). The arguments passed by pointer
(`gameCommands`, `camZoom`, `camPos`, `drawHitBox`, `readConsole`) are the
fields of the world; `gameObjs` is only captured by the commands and
`camZoomSpeed` is only used by commented-out code. -/
def HandleInput (env : Env) (win : Window) (cam : Matrix) (objectAssets : ObjectAssets)
    (dt camSpeed _camZoomSpeed : ℚ) : M Entries := do
  let cursorToggle : Bool := false
  let debugLog ← initHandler env objectAssets cursorToggle
  let debugLog ← handleConsole env cursorToggle debugLog
  drawCursor win cam
  handleButtons env win cam
  handleKeys env win cam
  moveCamera win dt camSpeed
  pure debugLog

/-! ## `src/app/app.go` -/

/-- What the outside world supplies for one iteration of the frame loop. -/
structure TickInput where
  /-- The elapsed time `time.Since(last).Seconds()`. -/
  dt : ℚ
  /-- The input state of the window during the iteration. -/
  win : Window
  /-- A message the console server has ready to send before `HandleInput` runs. -/
  arrival : Option ITxTopic
  /-- Whether the one-second ticker has fired (`case <-second.C`). -/
  secondElapsed : Bool
  /-- Whether the user asks to close the window while `win.Update()` polls events. -/
  closeRequested : Bool

/-- The console server sends on `consoleToInputChan`, a channel of capacity 1
(`make(chan console.ITxTopic, 1)`): the message is buffered when the buffer is
empty, otherwise the sender stays blocked. -/
def deliverTo (arrival : Option ITxTopic) (w : World) : World :=
  match arrival, w.consoleInput with
  | some msg, [] => { w with consoleInput := [msg] }
  | _, _ => w

/-- The send of the console server, as a step of the run. -/
def deliver (arrival : Option ITxTopic) : M Unit :=
  modifyWorld (deliverTo arrival)

/-- The matrix `pixel.IM.Scaled(camPos, camZoom).Moved(center.Sub(camPos))`, through its
`Unproject`. -/
def camMatrix (center camPos : Vec) (camZoom : ℚ) : Matrix :=
  ⟨fun u => ⟨(u.X - center.X) / camZoom + camPos.X, (u.Y - center.Y) / camZoom + camPos.Y⟩⟩

/-- The call `win.Closed()` in the loop condition. -/
def Closed (env : Env) (w : World) : Bool :=
  if w.winDestroyed then env.closedAfterDestroy else w.winShouldClose

/-- Lines 157-164 of `App`: the scan of the debug log. -/
def scanLog (env : Env) : Entries → M Unit
  | [] => pure ()
  | entry :: rest => do
    emit (.Printf ("debugLog: " ++ entry.GetMessage))
    if entry.GetMessage = env.Stop then
      emit (.Sleep 2)
      emit .Destroy
      modifyWorld fun w => { w with winDestroyed := true }
    scanLog env rest

/-- Lines 119-164 of `App`: the part of the loop body after `HandleInput` has returned
`debugLog`. The GUI, the command executor and the object fan-outs are
collaborators outside the sources: each call is recorded as an event and taken
to return. -/
def afterInput (env : Env) (inp : TickInput) (cam : Matrix) (debugLog : Entries) :
    M Entries := do
  emit .UpdateGUI
  emit .ExecuteCommands
  modifyWorld fun w => { w with gameCommands := env.executeCommands w.gameCommands }
  emit .Wait
  emit .UpdateAllObjects
  emit .Wait
  emit .Clear
  emit .DrawAllObjects
  emit .Wait
  emit .DrawGUI
  drawCursor inp.win cam
  emit .Update
  modifyWorld fun w => { w with winShouldClose := w.winShouldClose || inp.closeRequested }
  modifyWorld fun w => { w with frames := w.frames + 1 }
  if inp.secondElapsed then
    let w ← getWorld
    emit (.SetTitle w.frames)
    modifyWorld fun w => { w with frames := 0 }
  emit .ScanLog
  scanLog env debugLog
  pure debugLog

/-- The body of the loop of `App` (lines 97-164). `camSpeed` is 500 and
`camZoomSpeed` is 1.2 (lines 46 and 48). Returns the debug log of the
iteration. -/
def tick (env : Env) (objectAssets : ObjectAssets) (inp : TickInput) : M Entries := do
  deliver inp.arrival
  let w ← getWorld
  let cam := camMatrix env.windowCenter w.camPos w.camZoom
  emit .SetMatrix
  emit .HandleInput
  let debugLog ← HandleInput env inp.win cam objectAssets inp.dt 500 (12 / 10)
  afterInput env inp cam debugLog

/-- The loop `for !win.Closed() { ... }` of `App`, run on a finite stretch of inputs. -/
def App (env : Env) (objectAssets : ObjectAssets) : List TickInput → World → Res Unit
  | [], w => .ok () w
  | inp :: rest, w =>
    if Closed env w then .ok () w
    else
      match tick env objectAssets inp w with
      | .ok _ w1 => App env objectAssets rest w1
      | .panic p w1 => .panic p w1

/-- The state in which `App` enters its loop (lines 44-60). -/
def World.initial : World :=
  { input := InputHandler.zero, consoleInput := [], gameCommands := [], camZoom := 1,
    camPos := ⟨0, 0⟩, drawHitBox := false, frames := 0, winShouldClose := false,
    winDestroyed := false, events := [] }

/-- The events that mark the phases of an iteration. -/
def Event.isPhase : Event → Bool
  | .HandleInput | .ExecuteCommands | .Wait | .UpdateAllObjects | .Clear
  | .DrawAllObjects | .ScanLog => true
  | _ => false

/-- The events of the command execution and of the two fan-outs. -/
def Event.isWork : Event → Bool
  | .ExecuteCommands | .UpdateAllObjects | .DrawAllObjects => true
  | _ => false

/-- The debug log holds an entry equal to the Stop sentinel. -/
def hasSentinel (env : Env) (log : Entries) : Bool :=
  log.any fun entry => entry.GetMessage == env.Stop

/-! ## `src/usb/driver.go` -/

/-- The type gousb.ID, a `uint16`: conversion from `int` keeps the low 16 bits. -/
def ID (v : Int) : Nat := (v % 65536).toNat

/-- The type gousb.DeviceDesc, with the two fields the opener reads. -/
structure DeviceDesc where
  Vendor : Nat
  Product : Nat
deriving DecidableEq, Repr

/-- A device on the bus, as the USB library meets it during enumeration. -/
structure BusDevice where
  /-- The descriptor, or `none` when reading it fails. -/
  desc : Option DeviceDesc
  /-- Whether opening the device succeeds. -/
  opens : Bool
deriving DecidableEq, Repr

/-- An opened `*gousb.Device`; `handle` is its position on the bus. -/
structure Device where
  handle : Nat
  Desc : DeviceDesc
deriving DecidableEq, Repr

/-- Errors of the USB code. -/
inductive UsbError where
  /-- An error the library met at bus position `busIndex`. -/
  | enumeration (busIndex : Nat)
  /-- The wrapped error "failed to open USB devices: ...". -/
  | failedToOpen (cause : UsbError)
  /-- The error "no USB devices found with VID ... and PID ...". -/
  | notFound (vid pid : Int)
deriving DecidableEq, Repr

/-- Device handles and the context, with the `Close` calls made so far. -/
structure UsbState where
  openHandles : List Nat
  closeCalls : List Nat
  ctxClosed : Bool
deriving DecidableEq, Repr

/-- The method Context.OpenDevices of gousb, as its documentation describes it: every
device whose descriptor the opener accepts is opened; an error on one device
is remembered and enumeration goes on; the devices opened are returned
together with the last error. The index `i` is the bus position of the head
of `bus`. -/
def OpenDevices (opener : DeviceDesc → Bool) : List BusDevice → Nat → List Device × Option UsbError
  | [], _ => ([], none)
  | d :: rest, i =>
    let (devs, err) := OpenDevices opener rest (i + 1)
    match d.desc with
    | none => (devs, err.orElse fun _ => some (.enumeration i))
    | some desc =>
      if opener desc then
        if d.opens then (⟨i, desc⟩ :: devs, err)
        else (devs, err.orElse fun _ => some (.enumeration i))
      else (devs, err)

/-- The method Device.Close. -/
def Device.Close (d : Device) (s : UsbState) : UsbState :=
  { s with openHandles := s.openHandles.filter (fun h => h != d.handle),
           closeCalls := s.closeCalls ++ [d.handle] }

/-- The method Context.Close: releases the context; it closes no device. -/
def ContextClose (s : UsbState) : UsbState := { s with ctxClosed := true }

/-- The deferred closure of lines 21-25: `for _, d := range devs { d.Close() }`. -/
def closeDevices (devs : List Device) (s : UsbState) : UsbState :=
  devs.foldl (fun s d => d.Close s) s

/-- What `FindDeviceWithVIDPID` returns, and the state it leaves. -/
structure FindResult where
  device : Option Device
  err : Option UsbError
  state : UsbState
deriving DecidableEq, Repr

/-- The function FindDeviceWithVIDPID (lines 9-33). Deferred calls run after the result
is fixed, last registered first. -/
def FindDeviceWithVIDPID (bus : List BusDevice) (vid pid : Int) : FindResult :=
  let opened := OpenDevices (fun desc => desc.Vendor == ID vid && desc.Product == ID pid) bus 0
  let devs := opened.1
  let s : UsbState :=
    { openHandles := devs.map (fun d => d.handle), closeCalls := [], ctxClosed := false }
  match opened.2 with
  | some e => { device := none, err := some (.failedToOpen e), state := ContextClose s }
  | none =>
    if devs.length == 0 then
      { device := none, err := some (.notFound vid pid),
        state := ContextClose (closeDevices devs s) }
    else
      { device := devs.head?, err := none, state := ContextClose (closeDevices devs s) }

/-! ## Notions used to state and prove the properties -/

/-- The events that are neither phase markers nor part of the shutdown: cursor
visibility, cursor drawing, printing and the window title. -/
def Event.isMinor : Event → Bool
  | .SetCursorVisible _ | .CursorDraw _ _ | .Printf _ | .SetTitle _ => true
  | _ => false

/-- The matrix `cam` of the iteration on `inp` entered in state `w` (line 101). -/
def tickCam (env : Env) (inp : TickInput) (w : World) : Matrix :=
  camMatrix env.windowCenter (deliverTo inp.arrival w).camPos (deliverTo inp.arrival w).camZoom

/-- The state in which the iteration on `inp`, entered in state `w`, calls
`HandleInput` (line 104). -/
def tickEntry (inp : TickInput) (w : World) : World :=
  { deliverTo inp.arrival w with
    events := (deliverTo inp.arrival w).events ++ [Event.SetMatrix] ++ [Event.HandleInput] }

/-- The events of the scan of the debug log (lines 157-164), for a given log. -/
def scanEvents (env : Env) : Entries → List Event
  | [] => []
  | entry :: rest =>
    (Event.Printf ("debugLog: " ++ entry.GetMessage) ::
      (if entry.GetMessage = env.Stop then [Event.Sleep 2, Event.Destroy] else []))
      ++ scanEvents env rest

/-- The events of one whole iteration, given the minor events raised inside
`HandleInput`, by the cursor drawing and by the title update. -/
def tickEvents (env : Env) (log : Entries) (esIn esDraw esTitle : List Event) : List Event :=
  [Event.SetMatrix, Event.HandleInput] ++ esIn ++
  [Event.UpdateGUI, Event.ExecuteCommands, Event.Wait, Event.UpdateAllObjects, Event.Wait,
    Event.Clear, Event.DrawAllObjects, Event.Wait, Event.DrawGUI] ++ esDraw ++
  [Event.Update] ++ esTitle ++ [Event.ScanLog] ++ scanEvents env log

/-- The kind of panic an outcome ended in, if any. -/
def Res.panic? {α : Type} : Res α → Option Panic
  | .ok _ _ => none
  | .panic p _ => some p

/-- Apply `g` to the state of an outcome. -/
def Res.mapWorld {α : Type} (g : World → World) : Res α → Res α
  | .ok a w => .ok a (g w)
  | .panic p w => .panic p (g w)

/-- The state with the buffer of the control channel replaced. -/
def World.withConsoleInput (c : List ITxTopic) (w : World) : World :=
  { w with consoleInput := c }

/-- The property `P` of the state survives the code `m`, whether `m` returns or
panics. -/
def Inv {α : Type} (P : World → Prop) (m : M α) : Prop := ∀ w, P w → P (m w).world

/-- From a state with `P` the code `m` returns normally, in a state with `P`. -/
def Safe {α : Type} (P : World → Prop) (m : M α) : Prop :=
  ∀ w, P w → ∃ a w1, m w = .ok a w1 ∧ P w1

/-- Running `m` and replacing the channel buffer can be done in either order. -/
def Commutes {α : Type} (c : List ITxTopic) (m : M α) : Prop :=
  ∀ w, m (w.withConsoleInput c) = (m w).mapWorld (World.withConsoleInput c)

/-- Lines 111-175 of `HandleInput`, the part after `handleConsole`, as one piece
(`HandleInput_eq` shows `HandleInput` is the initialization, `handleConsole`
and this). -/
def afterConsole (env : Env) (win : Window) (cam : Matrix) (dt camSpeed : ℚ)
    (debugLog : Entries) : M Entries := do
  drawCursor win cam
  handleButtons env win cam
  handleKeys env win cam
  moveCamera win dt camSpeed
  pure debugLog

/-- The handler has gone through its initialization with a cursor asset that has
both frames: the cursor sprite is set. -/
def Ready (w : World) : Prop :=
  w.input.initialized = true ∧ w.input.Cursor.isSome = true ∧
  (cursorFrame w.input.CursorAssets 0).isSome = true ∧
  (cursorFrame w.input.CursorAssets 1).isSome = true

instance (w : World) : Decidable (Ready w) := by
  unfold Ready
  infer_instance

/-- The sprite of the idle cursor for the assets bound to the handler. -/
def idleCursor (a : ObjectAnimationAsset) : Option Sprite :=
  (cursorFrame a 0).map fun f => ⟨a.Sheet, f⟩

/-- The sprite of the pressed cursor for the assets bound to the handler. -/
def pressedCursor (a : ObjectAnimationAsset) : Option Sprite :=
  (cursorFrame a 1).map fun f => ⟨a.Sheet, f⟩

/-! ## Concrete inputs -/

namespace Example

/-- A choice of the constants. -/
def env : Env where
  Poke := "poke"
  Stop := "stop"
  CursorDesription := "cursor"
  fmtFloat := fun _ => "0.000000"
  cardObjectName := "card"
  windowCenter := ⟨512, 384⟩
  closedAfterDestroy := true
  executeCommands := fun c => c

/-- The same constants, with a window library that reports a destroyed window as
still open. -/
def envStillOpen : Env := { env with closedAfterDestroy := false }

/-- The first frame of the cursor sheet. -/
def frame0 : Rect := ⟨⟨0, 0⟩, ⟨16, 16⟩⟩

/-- The second frame of the cursor sheet. -/
def frame1 : Rect := ⟨⟨16, 0⟩, ⟨32, 16⟩⟩

/-- A cursor asset with two frames. -/
def cursorAsset : ObjectAnimationAsset :=
  { Sheet := some "cursorSheet", Anims := [("cursor", [frame0, frame1])], Description := "cursor" }

/-- Another animation asset with two frames. -/
def cardAsset : ObjectAnimationAsset :=
  { Sheet := some "cardSheet", Anims := [("card", [frame1, frame0])], Description := "card" }

/-- A window with the mouse outside and no key or button active. -/
def idleWindow : Window :=
  { MouseInsideWindow := false, Pressed := fun _ => false, JustPressed := fun _ => false,
    JustReleased := fun _ => false, MousePosition := ⟨0, 0⟩ }

/-- The mouse is inside the window, no key or button active. -/
def mouseInside : Window := { idleWindow with MouseInsideWindow := true }

/-- Left control is held, the mouse is outside the window. -/
def controlHeld : Window := { idleWindow with Pressed := fun b => b == .KeyLeftControl }

/-- The key H has just been pressed. -/
def pressH : Window := { idleWindow with JustPressed := fun b => b == .KeyH }

/-- The key D is held. -/
def holdD : Window := { idleWindow with Pressed := fun b => b == .KeyD }

/-- The identity view. -/
def cam : Matrix := ⟨fun u => u⟩

/-- A state with the handler initialized on `cursorAsset`, cursor idle. -/
def readyWorld : World :=
  { World.initial with
    input := { initialized := true, Cursor := some ⟨some "cursorSheet", frame0⟩,
               CursorAssets := cursorAsset } }

/-- An iteration with no input in which the console sends `msg`. -/
def quietTick (msg : Option ITxTopic) : TickInput :=
  { dt := 1 / 60, win := idleWindow, arrival := msg, secondElapsed := false,
    closeRequested := false }

/-- The key H has just been pressed and the left mouse button is held; the mouse
is outside the window. -/
def busyWindow : Window :=
  { idleWindow with
    Pressed := fun b => b == .MouseButtonLeft
    JustPressed := fun b => b == .KeyH }

/-- The catalog holding the cursor asset only. -/
def cursorOnly : ObjectAssets := [.animation cursorAsset]

/-- A catalog in which the cursor asset is not the first element. -/
def cursorSecond : ObjectAssets := [.animation cardAsset, .animation cursorAsset]

/-- The state after a first `HandleInput` call that consumes a Poke, with no key or
button input. -/
def afterFirstPoke : World :=
  (HandleInput env idleWindow cam cursorOnly (1 / 60) 500 (12 / 10)
    { World.initial with consoleInput := [⟨"poke"⟩] }).world

/-- The state after a later `HandleInput` call that consumes a second Poke, again
with no key or button input. -/
def afterSecondPoke : World :=
  (HandleInput env idleWindow cam cursorOnly (1 / 60) 500 (12 / 10)
    { afterFirstPoke with consoleInput := [⟨"poke"⟩] }).world

/-- A bus with two devices of vendor 0x1234 and product 0x5678; the second
cannot be opened. -/
def busSecondFails : List BusDevice :=
  [{ desc := some ⟨0x1234, 0x5678⟩, opens := true },
   { desc := some ⟨0x1234, 0x5678⟩, opens := false }]

/-- A bus with one other device and two devices of vendor 0x1234 and product
0x5678. -/
def busTwoMatches : List BusDevice :=
  [{ desc := some ⟨0x0001, 0x0002⟩, opens := true },
   { desc := some ⟨0x1234, 0x5678⟩, opens := true },
   { desc := some ⟨0x1234, 0x5678⟩, opens := true }]

end Example

/-! ## General lemmas on sequencing -/

section Framework
variable {α β : Type} {P : World → Prop}

theorem bind_apply (m : M α) (k : α → M β) (w : World) :
    (m >>= k) w = match m w with
      | .ok a w1 => k a w1
      | .panic p w1 => .panic p w1 := rfl

theorem bind_eq_ok {m : M α} {k : α → M β} {w w2 : World} {b : β} :
    (m >>= k) w = .ok b w2 ↔ ∃ a w1, m w = .ok a w1 ∧ k a w1 = .ok b w2 := by
  rw [bind_apply]
  cases m w with
  | ok a w1 =>
    constructor
    · intro h
      exact ⟨a, w1, rfl, h⟩
    · rintro ⟨a1, w3, h1, h2⟩
      cases h1
      exact h2
  | panic p w1 =>
    constructor
    · intro h
      cases h
    · rintro ⟨a1, w3, h1, _⟩
      cases h1

theorem inv_bind {m : M α} {k : α → M β} (hm : Inv P m) (hk : ∀ a, Inv P (k a)) :
    Inv P (m >>= k) := by
  intro w hw
  rw [bind_apply]
  have h := hm w hw
  cases hmw : m w with
  | ok a w1 => rw [hmw] at h; exact hk a w1 h
  | panic p w1 => rw [hmw] at h; exact h

theorem inv_pure (a : α) : Inv P (pure a : M α) := fun _ h => h

theorem inv_throwPanic (p : Panic) : Inv P (throwPanic p : M α) := fun _ h => h

theorem inv_getWorld : Inv P getWorld := fun _ h => h

theorem inv_ite {c : Prop} [Decidable c] {t e : M α} (ht : Inv P t) (he : Inv P e) :
    Inv P (if c then t else e) := by
  split
  · exact ht
  · exact he

theorem inv_modifyWorld {g : World → World} (h : ∀ w, P w → P (g w)) : Inv P (modifyWorld g) :=
  fun w hw => h w hw

theorem inv_of_ok {m : M α} (h : Inv P m) {w w1 : World} {a : α} (hw : P w)
    (hm : m w = .ok a w1) : P w1 := by
  have := h w hw
  rw [hm] at this
  exact this

end Framework

/-! ## What each part of `HandleInput` leaves unchanged -/

section Phases
variable {P : World → Prop}

theorem setCursor_inv (pressed : Bool)
    (hCursor : ∀ w s, P w → P { w with input := { w.input with Cursor := some s } })
    (hInit : ∀ w, P w → P { w with input := { w.input with initialized := true } }) :
    Inv P (setCursor pressed) := by
  unfold setCursor
  refine inv_bind inv_getWorld fun w0 => ?_
  cases pressed
  · simp only [Bool.not_false, if_true]
    cases cursorFrame w0.input.CursorAssets 0 with
    | none => exact inv_bind (inv_throwPanic _) fun _ => inv_modifyWorld hInit
    | some f => exact inv_bind (inv_modifyWorld fun w => hCursor w _) fun _ => inv_modifyWorld hInit
  · simp only [Bool.not_true]
    cases cursorFrame w0.input.CursorAssets 1 with
    | none => exact inv_bind (inv_throwPanic _) fun _ => inv_modifyWorld hInit
    | some f => exact inv_bind (inv_modifyWorld fun w => hCursor w _) fun _ => inv_modifyWorld hInit

theorem emit_inv (e : Event)
    (hEvent : ∀ w, P w → P { w with events := w.events ++ [e] }) : Inv P (emit e) :=
  inv_modifyWorld hEvent

theorem handleButtons_inv (env : Env) (win : Window) (cam : Matrix)
    (hCursor : ∀ w s, P w → P { w with input := { w.input with Cursor := some s } })
    (hInit : ∀ w, P w → P { w with input := { w.input with initialized := true } })
    (hEvent : ∀ w e, e.isMinor = true → P w → P { w with events := w.events ++ [e] })
    (hCmd : ∀ w g, P w → P { w with gameCommands := g }) :
    Inv P (handleButtons env win cam) := by
  unfold handleButtons
  repeat' (first
    | exact setCursor_inv _ hCursor hInit
    | exact emit_inv _ (fun w => hEvent w _ rfl)
    | exact inv_pure _
    | exact inv_modifyWorld (fun w => hCmd w _)
    | refine inv_bind ?_ (fun _ => ?_)
    | refine inv_ite ?_ ?_)


theorem cursorDraw_inv (pos : Vec)
    (hEvent : ∀ w e, e.isMinor = true → P w → P { w with events := w.events ++ [e] }) :
    Inv P (cursorDraw pos) := by
  unfold cursorDraw
  refine inv_bind inv_getWorld fun w0 => ?_
  cases w0.input.Cursor with
  | none => exact inv_throwPanic _
  | some s => exact emit_inv _ (fun w => hEvent w _ rfl)

theorem drawCursor_inv (win : Window) (cam : Matrix)
    (hEvent : ∀ w e, e.isMinor = true → P w → P { w with events := w.events ++ [e] }) :
    Inv P (drawCursor win cam) := by
  unfold drawCursor
  repeat' (first
    | exact cursorDraw_inv _ hEvent
    | exact emit_inv _ (fun w => hEvent w _ rfl)
    | exact inv_pure _
    | refine inv_bind ?_ (fun _ => ?_)
    | refine inv_ite ?_ ?_)

theorem handleKeys_inv (env : Env) (win : Window) (cam : Matrix)
    (hCmd : ∀ w g, P w → P { w with gameCommands := g })
    (hHit : ∀ w b, P w → P { w with drawHitBox := b }) :
    Inv P (handleKeys env win cam) := by
  unfold handleKeys
  repeat' (first
    | exact inv_pure _
    | exact inv_modifyWorld (fun w => hCmd w _)
    | exact inv_modifyWorld (fun w => hHit w _)
    | refine inv_bind ?_ (fun _ => ?_)
    | refine inv_ite ?_ ?_)

theorem moveCamera_inv (win : Window) (dt camSpeed : ℚ)
    (hCam : ∀ w c, P w → P { w with camPos := c }) :
    Inv P (moveCamera win dt camSpeed) := by
  unfold moveCamera
  repeat' (first
    | exact inv_pure _
    | exact inv_modifyWorld (fun w => hCam w _)
    | refine inv_bind ?_ (fun _ => ?_)
    | refine inv_ite ?_ ?_)

theorem initHandler_inv (env : Env) (objectAssets : ObjectAssets) (cursorToggle : Bool)
    (hCursor : ∀ w s, P w → P { w with input := { w.input with Cursor := some s } })
    (hInit : ∀ w, P w → P { w with input := { w.input with initialized := true } })
    (hAssets : ∀ w a, P w → P { w with input := { w.input with CursorAssets := a } })
    (hZoom : ∀ w z, P w → P { w with camZoom := z })
    (hEvent : ∀ w e, e.isMinor = true → P w → P { w with events := w.events ++ [e] }) :
    Inv P (initHandler env objectAssets cursorToggle) := by
  unfold initHandler
  refine inv_bind inv_getWorld fun w0 => ?_
  refine inv_ite ?_ (inv_pure _)
  refine inv_bind (inv_modifyWorld fun w => hZoom w _) fun _ => ?_
  refine inv_ite ?_ ?_
  · split
    · exact inv_bind (inv_modifyWorld fun w => hAssets w _) fun _ =>
        inv_bind (setCursor_inv _ hCursor hInit) fun _ => inv_pure _
    · exact inv_throwPanic _
    · exact inv_throwPanic _
  · exact inv_bind (emit_inv _ (fun w => hEvent w _ rfl)) fun _ => inv_pure _


theorem tryReceive_inv (hChan : ∀ w c, P w → P { w with consoleInput := c }) :
    Inv P tryReceive := by
  intro w hw
  unfold tryReceive
  cases h : w.consoleInput with
  | nil => exact hw
  | cons c rest => exact hChan w rest hw

theorem afterReceive_inv (env : Env) (someFlag : Bool) (debugLog : Entries) (c : ITxTopic)
    (hCursor : ∀ w s, P w → P { w with input := { w.input with Cursor := some s } })
    (hInit : ∀ w, P w → P { w with input := { w.input with initialized := true } }) :
    Inv P (do
      if c.GetTopicId = env.Poke then
        let someFlag := !someFlag
        setCursor someFlag
      if c.GetTopicId = env.Stop then
        let stopCommand : Entry := { Message := env.Stop }
        pure (debugLog ++ [stopCommand])
      else
        pure debugLog : M Entries) := by
  repeat' (first
    | exact setCursor_inv _ hCursor hInit
    | exact inv_pure _
    | refine inv_bind ?_ (fun _ => ?_)
    | refine inv_ite ?_ ?_)

theorem handleConsole_cons (env : Env) (someFlag : Bool) (debugLog : Entries) (w : World)
    (c : ITxTopic) (rest : List ITxTopic) (h : w.consoleInput = c :: rest) :
    handleConsole env someFlag debugLog w =
      (do
        if c.GetTopicId = env.Poke then
          let someFlag := !someFlag
          setCursor someFlag
        if c.GetTopicId = env.Stop then
          let stopCommand : Entry := { Message := env.Stop }
          pure (debugLog ++ [stopCommand])
        else
          pure debugLog : M Entries) { w with consoleInput := rest } := by
  unfold handleConsole
  rw [bind_apply]
  simp only [tryReceive, h]

theorem handleConsole_nil (env : Env) (someFlag : Bool) (debugLog : Entries) (w : World)
    (h : w.consoleInput = []) : handleConsole env someFlag debugLog w = .ok debugLog w := by
  unfold handleConsole
  rw [bind_apply]
  simp only [tryReceive, h]
  rfl

theorem handleConsole_inv (env : Env) (someFlag : Bool) (debugLog : Entries)
    (hCursor : ∀ w s, P w → P { w with input := { w.input with Cursor := some s } })
    (hInit : ∀ w, P w → P { w with input := { w.input with initialized := true } })
    (hChan : ∀ w c, P w → P { w with consoleInput := c }) :
    Inv P (handleConsole env someFlag debugLog) := by
  intro w hw
  cases h : w.consoleInput with
  | nil => rw [handleConsole_nil env someFlag debugLog w h]; exact hw
  | cons c rest =>
    rw [handleConsole_cons env someFlag debugLog w c rest h]
    exact afterReceive_inv env someFlag debugLog c hCursor hInit _ (hChan w rest hw)

end Phases

/-! ## Decomposition of `HandleInput` -/

theorem pure_eq_ok {α : Type} {a b : α} {w w2 : World} :
    (pure a : M α) w = .ok b w2 ↔ a = b ∧ w = w2 := by
  show Res.ok a w = Res.ok b w2 ↔ _
  constructor
  · intro h
    cases h
    exact ⟨rfl, rfl⟩
  · rintro ⟨rfl, rfl⟩
    rfl

theorem HandleInput_eq_ok {env : Env} {win : Window} {cam : Matrix} {objectAssets : ObjectAssets}
    {dt camSpeed camZoomSpeed : ℚ} {w w2 : World} {log : Entries} :
    HandleInput env win cam objectAssets dt camSpeed camZoomSpeed w = .ok log w2 ↔
    ∃ log0 wa wb wc wd we,
      initHandler env objectAssets false w = .ok log0 wa ∧
      handleConsole env false log0 wa = .ok log wb ∧
      drawCursor win cam wb = .ok () wc ∧
      handleButtons env win cam wc = .ok () wd ∧
      handleKeys env win cam wd = .ok () we ∧
      moveCamera win dt camSpeed we = .ok () w2 := by
  unfold HandleInput
  simp only [bind_eq_ok, pure_eq_ok]
  constructor
  · rintro ⟨log0, wa, h1, log1, wb, h2, _, wc, h3, _, wd, h4, _, we, h5, _, wf, h6, rfl, rfl⟩
    exact ⟨log0, wa, wb, wc, wd, we, h1, h2, h3, h4, h5, h6⟩
  · rintro ⟨log0, wa, wb, wc, wd, we, h1, h2, h3, h4, h5, h6⟩
    exact ⟨log0, wa, h1, log, wb, h2, (), wc, h3, (), wd, h4, (), we, h5, (), w2, h6, rfl, rfl⟩

theorem moveCamera_east (win : Window) (dt camSpeed : ℚ) (w : World)
    (hD : win.Pressed .KeyD = true) (hA : win.Pressed .KeyA = false)
    (hS : win.Pressed .KeyS = false) (hW : win.Pressed .KeyW = false) :
    moveCamera win dt camSpeed w =
      .ok () { w with camPos := ⟨w.camPos.X + camSpeed * dt, w.camPos.Y⟩ } := by
  unfold moveCamera
  simp only [hD, hA, hS, hW, bind_apply]
  rfl

/-! ## Returning normally from a ready handler -/

section SafeRules
variable {α β : Type} {P : World → Prop}

theorem safe_bind {m : M α} {k : α → M β} (hm : Safe P m) (hk : ∀ a, Safe P (k a)) :
    Safe P (m >>= k) := by
  intro w hw
  obtain ⟨a, w1, h1, hP⟩ := hm w hw
  obtain ⟨b, w2, h2, hP2⟩ := hk a w1 hP
  exact ⟨b, w2, bind_eq_ok.mpr ⟨a, w1, h1, h2⟩, hP2⟩

theorem safe_pure (a : α) : Safe P (pure a : M α) := fun w hw => ⟨a, w, rfl, hw⟩

theorem safe_ite {c : Prop} [Decidable c] {t e : M α} (ht : Safe P t) (he : Safe P e) :
    Safe P (if c then t else e) := by
  split
  · exact ht
  · exact he

theorem safe_modifyWorld {g : World → World} (h : ∀ w, P w → P (g w)) :
    Safe P (modifyWorld g) :=
  fun w hw => ⟨(), g w, rfl, h w hw⟩

theorem safe_emit (e : Event) (h : ∀ w, P w → P { w with events := w.events ++ [e] }) :
    Safe P (emit e) :=
  safe_modifyWorld h

end SafeRules

theorem setCursor_eq (pressed : Bool) (w : World) :
    setCursor pressed w =
      match cursorFrame w.input.CursorAssets (if pressed then 1 else 0) with
      | some f => .ok () { w with input :=
          { w.input with Cursor := some ⟨w.input.CursorAssets.Sheet, f⟩, initialized := true } }
      | none => .panic .indexOutOfRange w := by
  unfold setCursor
  rw [bind_apply]
  cases pressed
  · simp only [getWorld, Bool.not_false, if_true, Bool.false_eq_true, if_false]
    cases cursorFrame w.input.CursorAssets 0 <;> rfl
  · simp only [getWorld, Bool.not_true, if_true, Bool.false_eq_true, if_false]
    cases cursorFrame w.input.CursorAssets 1 <;> rfl

theorem setCursor_safe (pressed : Bool) : Safe Ready (setCursor pressed) := by
  intro w hw
  obtain ⟨h1, h2, h3, h4⟩ := hw
  rw [setCursor_eq]
  have hf : (cursorFrame w.input.CursorAssets (if pressed = true then 1 else 0)).isSome = true := by
    cases pressed
    · simpa using h3
    · simpa using h4
  obtain ⟨f, hf⟩ := Option.isSome_iff_exists.mp hf
  rw [hf]
  exact ⟨(), _, rfl, rfl, rfl, h3, h4⟩

theorem cursorDraw_safe (pos : Vec) : Safe Ready (cursorDraw pos) := by
  intro w hw
  obtain ⟨s, hs⟩ := Option.isSome_iff_exists.mp hw.2.1
  unfold cursorDraw
  rw [bind_apply]
  simp only [getWorld, hs]
  exact ⟨(), _, rfl, hw⟩

theorem initHandler_safe (env : Env) (objectAssets : ObjectAssets) (cursorToggle : Bool) :
    Safe Ready (initHandler env objectAssets cursorToggle) := by
  intro w hw
  unfold initHandler
  rw [bind_apply]
  simp only [getWorld, hw.1, Bool.not_true, Bool.false_eq_true, if_false]
  exact ⟨[], w, rfl, hw⟩

theorem handleConsole_safe (env : Env) (someFlag : Bool) (debugLog : Entries) :
    Safe Ready (handleConsole env someFlag debugLog) := by
  intro w hw
  cases h : w.consoleInput with
  | nil => exact ⟨debugLog, w, handleConsole_nil env someFlag debugLog w h, hw⟩
  | cons c rest =>
    rw [handleConsole_cons env someFlag debugLog w c rest h]
    have hk : Safe Ready (do
        if c.GetTopicId = env.Poke then
          let someFlag := !someFlag
          setCursor someFlag
        if c.GetTopicId = env.Stop then
          let stopCommand : Entry := { Message := env.Stop }
          pure (debugLog ++ [stopCommand])
        else
          pure debugLog : M Entries) := by
      repeat' (first
        | exact setCursor_safe _
        | exact safe_pure _
        | refine safe_bind ?_ (fun _ => ?_)
        | refine safe_ite ?_ ?_)
    exact hk _ hw

theorem HandleInput_safe (env : Env) (win : Window) (cam : Matrix) (objectAssets : ObjectAssets)
    (dt camSpeed camZoomSpeed : ℚ) :
    Safe Ready (HandleInput env win cam objectAssets dt camSpeed camZoomSpeed) := by
  unfold HandleInput drawCursor handleButtons handleKeys moveCamera
  repeat' (first
    | exact initHandler_safe _ _ _
    | exact handleConsole_safe _ _ _
    | exact setCursor_safe _
    | exact cursorDraw_safe _
    | exact safe_pure _
    | exact safe_emit _ (fun _ h => h)
    | exact safe_modifyWorld (fun _ h => h)
    | refine safe_bind ?_ (fun _ => ?_)
    | refine safe_ite ?_ ?_)

/-! ## The camera and the control channel through `HandleInput` -/

theorem HandleInput_camPos {env : Env} {win : Window} {cam : Matrix}
    {objectAssets : ObjectAssets} {dt camSpeed camZoomSpeed : ℚ} {w w2 : World} {log : Entries}
    (h : HandleInput env win cam objectAssets dt camSpeed camZoomSpeed w = .ok log w2) :
    ∃ we, we.camPos = w.camPos ∧ moveCamera win dt camSpeed we = .ok () w2 := by
  obtain ⟨log0, wa, wb, wc, wd, we, h1, h2, h3, h4, h5, h6⟩ := HandleInput_eq_ok.mp h
  refine ⟨we, ?_, h6⟩
  have ha : wa.camPos = w.camPos :=
    inv_of_ok (initHandler_inv (P := fun x => x.camPos = w.camPos) env objectAssets false
      (fun _ _ h => h) (fun _ h => h) (fun _ _ h => h) (fun _ _ h => h)
      (fun _ _ _ h => h)) rfl h1
  have hb : wb.camPos = w.camPos :=
    inv_of_ok (handleConsole_inv (P := fun x => x.camPos = w.camPos) env false log0
      (fun _ _ h => h) (fun _ h => h) (fun _ _ h => h)) ha h2
  have hc : wc.camPos = w.camPos :=
    inv_of_ok (drawCursor_inv (P := fun x => x.camPos = w.camPos) win cam
      (fun _ _ _ h => h)) hb h3
  have hd : wd.camPos = w.camPos :=
    inv_of_ok (handleButtons_inv (P := fun x => x.camPos = w.camPos) env win cam
      (fun _ _ h => h) (fun _ h => h) (fun _ _ _ h => h) (fun _ _ h => h)) hc h4
  exact inv_of_ok (handleKeys_inv (P := fun x => x.camPos = w.camPos) env win cam
      (fun _ _ h => h) (fun _ _ h => h)) hd h5

theorem handleConsole_channel (env : Env) (someFlag : Bool) (debugLog : Entries) (w : World) :
    (handleConsole env someFlag debugLog w).world.consoleInput = w.consoleInput.tail := by
  cases h : w.consoleInput with
  | nil =>
    rw [handleConsole_nil env someFlag debugLog w h]
    exact h
  | cons c rest =>
    rw [handleConsole_cons env someFlag debugLog w c rest h]
    exact afterReceive_inv (P := fun x => x.consoleInput = rest) env someFlag debugLog c
      (fun _ _ h => h) (fun _ h => h) _ rfl

theorem afterConsole_channel (env : Env) (win : Window) (cam : Matrix) (dt camSpeed : ℚ)
    (debugLog : Entries) (c : List ITxTopic) :
    Inv (fun x => x.consoleInput = c) (afterConsole env win cam dt camSpeed debugLog) := by
  unfold afterConsole
  repeat' (first
    | exact drawCursor_inv _ _ (fun _ _ _ h => h)
    | exact handleButtons_inv _ _ _ (fun _ _ h => h) (fun _ h => h) (fun _ _ _ h => h)
        (fun _ _ h => h)
    | exact handleKeys_inv _ _ _ (fun _ _ h => h) (fun _ _ h => h)
    | exact moveCamera_inv _ _ _ (fun _ _ h => h)
    | exact inv_pure _
    | refine inv_bind ?_ (fun _ => ?_))

theorem HandleInput_channel (env : Env) (win : Window) (cam : Matrix)
    (objectAssets : ObjectAssets) (dt camSpeed camZoomSpeed : ℚ) (w : World) :
    ((HandleInput env win cam objectAssets dt camSpeed camZoomSpeed w).isOk = false ∧
      (HandleInput env win cam objectAssets dt camSpeed camZoomSpeed w).world.consoleInput
        = w.consoleInput) ∨
    (HandleInput env win cam objectAssets dt camSpeed camZoomSpeed w).world.consoleInput
        = w.consoleInput.tail := by
  have hinit := initHandler_inv (P := fun x => x.consoleInput = w.consoleInput) env objectAssets
    false (fun _ _ h => h) (fun _ h => h) (fun _ _ h => h) (fun _ _ h => h)
    (fun _ _ _ h => h) w rfl
  unfold HandleInput
  rw [bind_apply]
  cases h1 : initHandler env objectAssets false w with
  | panic p wa =>
    rw [h1] at hinit
    exact Or.inl ⟨rfl, hinit⟩
  | ok log0 wa =>
    rw [h1] at hinit
    right
    show ((handleConsole env false log0 >>= _) wa).world.consoleInput = _
    rw [bind_apply]
    have h2 := handleConsole_channel env false log0 wa
    cases hc : handleConsole env false log0 wa with
    | panic p wb =>
      rw [hc] at h2
      exact h2.trans (congrArg List.tail hinit)
    | ok log wb =>
      rw [hc] at h2
      have h3 := afterConsole_channel env win cam dt camSpeed log w.consoleInput.tail wb
        (h2.trans (congrArg List.tail hinit))
      exact h3

/-! ## `HandleInput` does not look at the channel outside `handleConsole` -/

section CommutesRules
variable {α β : Type} {c : List ITxTopic}

theorem commutes_bind {m : M α} {k : α → M β} (hm : Commutes c m) (hk : ∀ a, Commutes c (k a)) :
    Commutes c (m >>= k) := by
  intro w
  rw [bind_apply, bind_apply, hm w]
  cases m w with
  | ok a w1 => exact hk a w1
  | panic p w1 => rfl

theorem commutes_pure (a : α) : Commutes c (pure a : M α) := fun _ => rfl

theorem commutes_throwPanic (p : Panic) : Commutes c (throwPanic p : M α) := fun _ => rfl

theorem commutes_ite {d : Prop} [Decidable d] {t e : M α} (ht : Commutes c t)
    (he : Commutes c e) : Commutes c (if d then t else e) := by
  split
  · exact ht
  · exact he

theorem commutes_modifyWorld {g : World → World}
    (h : ∀ w : World, g (w.withConsoleInput c) = (g w).withConsoleInput c) :
    Commutes c (modifyWorld g) := by
  intro w
  show Res.ok () (g (w.withConsoleInput c)) = Res.ok () ((g w).withConsoleInput c)
  rw [h w]

theorem commutes_emit (e : Event) : Commutes c (emit e) :=
  commutes_modifyWorld fun _ => rfl

end CommutesRules

theorem setCursor_commutes (c : List ITxTopic) (pressed : Bool) :
    Commutes c (setCursor pressed) := by
  intro w
  rw [setCursor_eq, setCursor_eq]
  show (match cursorFrame w.input.CursorAssets (if pressed = true then 1 else 0) with
    | some f => _
    | none => _) = _
  cases cursorFrame w.input.CursorAssets (if pressed = true then 1 else 0) <;> rfl

theorem cursorDraw_commutes (c : List ITxTopic) (pos : Vec) : Commutes c (cursorDraw pos) := by
  intro w
  unfold cursorDraw
  rw [bind_apply, bind_apply]
  show (match w.input.Cursor with
    | some s => emit (.CursorDraw s pos)
    | none => throwPanic .nilDereference) (w.withConsoleInput c) = _
  simp only [getWorld]
  cases w.input.Cursor <;> rfl

theorem initHandler_commutes (c : List ITxTopic) (env : Env) (objectAssets : ObjectAssets)
    (cursorToggle : Bool) : Commutes c (initHandler env objectAssets cursorToggle) := by
  intro w
  unfold initHandler
  rw [bind_apply, bind_apply]
  simp only [getWorld]
  have hk : ∀ w0 : World, Commutes c (
      if (!w0.input.initialized) = true then do
        modifyWorld fun w => { w with camZoom := 578704 / 1000000 }
        let idx := IndexFunc objectAssets
          (fun _ => IsDescriptionAvailable objectAssets env.CursorDesription)
        if idx != -1 then
          match objectAssets[idx.toNat]? with
          | some (.animation a) =>
            modifyWorld fun w => { w with input := { w.input with CursorAssets := a } }
            setCursor cursorToggle
            pure []
          | some (.other _) => throwPanic .typeAssertion
          | none => throwPanic .indexOutOfRange
        else
          let indexError : Entry :=
            { Message := w0.input.CursorAssets.Description ++ " is not in assests" }
          emit (.Printf (w0.input.CursorAssets.Description ++ " is not in assests"))
          pure [indexError]
      else
        pure [] : M Entries) := by
    intro w0
    refine commutes_ite ?_ (commutes_pure _)
    refine commutes_bind (commutes_modifyWorld fun _ => rfl) fun _ => ?_
    refine commutes_ite ?_ ?_
    · split
      · exact commutes_bind (commutes_modifyWorld fun _ => rfl) fun _ =>
          commutes_bind (setCursor_commutes c _) fun _ => commutes_pure _
      · exact commutes_throwPanic _
      · exact commutes_throwPanic _
    · exact commutes_bind (commutes_emit _) fun _ => commutes_pure _
  exact hk w w

theorem afterConsole_commutes (c : List ITxTopic) (env : Env) (win : Window) (cam : Matrix)
    (dt camSpeed : ℚ) (debugLog : Entries) :
    Commutes c (afterConsole env win cam dt camSpeed debugLog) := by
  unfold afterConsole
  unfold drawCursor handleButtons handleKeys moveCamera
  repeat' (first
    | exact setCursor_commutes c _
    | exact cursorDraw_commutes c _
    | exact commutes_emit _
    | exact commutes_pure _
    | exact commutes_modifyWorld (fun _ => rfl)
    | refine commutes_bind ?_ (fun _ => ?_)
    | refine commutes_ite ?_ ?_)

theorem HandleInput_eq (env : Env) (win : Window) (cam : Matrix) (objectAssets : ObjectAssets)
    (dt camSpeed camZoomSpeed : ℚ) :
    HandleInput env win cam objectAssets dt camSpeed camZoomSpeed =
      (initHandler env objectAssets false >>= fun log0 =>
        handleConsole env false log0 >>= fun log => afterConsole env win cam dt camSpeed log) :=
  rfl

theorem afterConsole_relabel {env : Env} {win : Window} {cam : Matrix} {dt camSpeed : ℚ}
    {l log : Entries} {w w2 : World} (l2 : Entries)
    (h : afterConsole env win cam dt camSpeed l w = .ok log w2) :
    log = l ∧ afterConsole env win cam dt camSpeed l2 w = .ok l2 w2 := by
  unfold afterConsole at h ⊢
  obtain ⟨_, wc, h3, h⟩ := bind_eq_ok.mp h
  obtain ⟨_, wd, h4, h⟩ := bind_eq_ok.mp h
  obtain ⟨_, we, h5, h⟩ := bind_eq_ok.mp h
  obtain ⟨_, wf, h6, h⟩ := bind_eq_ok.mp h
  obtain ⟨h7, h8⟩ := pure_eq_ok.mp h
  refine ⟨h7.symm, ?_⟩
  exact bind_eq_ok.mpr ⟨(), wc, h3, bind_eq_ok.mpr ⟨(), wd, h4, bind_eq_ok.mpr ⟨(), we, h5,
    bind_eq_ok.mpr ⟨(), wf, h6, pure_eq_ok.mpr ⟨rfl, h8⟩⟩⟩⟩⟩

theorem handleConsole_stop (env : Env) (someFlag : Bool) (debugLog : Entries) (w : World)
    (msg : ITxTopic) (rest : List ITxTopic) (hchan : w.consoleInput = msg :: rest)
    (hstop : msg.GetTopicId = env.Stop) (hne : env.Poke ≠ env.Stop) :
    handleConsole env someFlag debugLog w =
      .ok (debugLog ++ [⟨env.Stop⟩]) (w.withConsoleInput rest) := by
  rw [handleConsole_cons env someFlag debugLog w msg rest hchan]
  have h1 : ¬ env.Stop = env.Poke := fun h => hne h.symm
  simp only [hstop, h1, if_false, if_true]
  rfl

theorem mapWorld_eq_ok {α : Type} {g : World → World} {r : Res α} {a : α} {w2 : World} :
    r.mapWorld g = .ok a w2 ↔ ∃ w0, r = .ok a w0 ∧ w2 = g w0 := by
  cases r with
  | ok b w1 =>
    constructor
    · intro h
      cases h
      exact ⟨w1, rfl, rfl⟩
    · rintro ⟨w0, h, rfl⟩
      cases h
      rfl
  | panic p w1 =>
    constructor
    · intro h
      cases h
    · rintro ⟨w0, h, _⟩
      cases h

theorem HandleInput_stop_iff (env : Env) (win : Window) (cam : Matrix)
    (objectAssets : ObjectAssets) (dt camSpeed camZoomSpeed : ℚ) (w : World)
    (msg : ITxTopic) (rest : List ITxTopic) (hchan : w.consoleInput = msg :: rest)
    (hstop : msg.GetTopicId = env.Stop) (hne : env.Poke ≠ env.Stop) (log : Entries)
    (w2 : World) :
    HandleInput env win cam objectAssets dt camSpeed camZoomSpeed w = .ok log w2 ↔
    ∃ log0 w0,
      HandleInput env win cam objectAssets dt camSpeed camZoomSpeed (w.withConsoleInput [])
        = .ok log0 w0 ∧
      log = log0 ++ [⟨env.Stop⟩] ∧ w2 = w0.withConsoleInput rest := by
  have hw : w = (w.withConsoleInput []).withConsoleInput (msg :: rest) := by
    cases w
    simp only [World.withConsoleInput] at hchan ⊢
    rw [← hchan]
  have hinit := initHandler_commutes (msg :: rest) env objectAssets false (w.withConsoleInput [])
  rw [← hw] at hinit
  have hnil := initHandler_inv (P := fun x => x.consoleInput = []) env objectAssets false
    (fun _ _ h => h) (fun _ h => h) (fun _ _ h => h) (fun _ _ h => h) (fun _ _ _ h => h)
    (w.withConsoleInput []) rfl
  rw [HandleInput_eq, bind_apply, bind_apply, hinit]
  cases h0 : initHandler env objectAssets false (w.withConsoleInput []) with
  | panic p wa =>
    constructor
    · intro h
      cases h
    · rintro ⟨_, _, h, _⟩
      cases h
  | ok l0 wa =>
    rw [h0] at hnil
    have hnil2 : wa.consoleInput = [] := hnil
    show (handleConsole env false l0 >>= _) (wa.withConsoleInput (msg :: rest)) = _ ↔
      ∃ log0 w0, (handleConsole env false l0 >>= _) wa = _ ∧ _
    rw [bind_apply, bind_apply, handleConsole_nil env false l0 wa hnil2,
      handleConsole_stop env false l0 _ msg rest rfl hstop hne]
    show afterConsole env win cam dt camSpeed (l0 ++ [⟨env.Stop⟩])
        (wa.withConsoleInput rest) = _ ↔
      ∃ log0 w0, afterConsole env win cam dt camSpeed l0 wa = _ ∧ _
    rw [afterConsole_commutes rest env win cam dt camSpeed
      (l0 ++ [({ Message := env.Stop } : Entry)]) wa, mapWorld_eq_ok]
    constructor
    · rintro ⟨w0, h, rfl⟩
      obtain ⟨rfl, h2⟩ := afterConsole_relabel l0 h
      exact ⟨l0, w0, h2, rfl, rfl⟩
    · rintro ⟨log0, w0, h, rfl, rfl⟩
      obtain ⟨rfl, h2⟩ := afterConsole_relabel (l0 ++ [⟨env.Stop⟩]) h
      exact ⟨w0, h2, rfl⟩

/-! ## One iteration of the frame loop -/

theorem pure_apply {α : Type} (a : α) (w : World) : (pure a : M α) w = .ok a w := rfl

theorem HandleInput_inv {P : World → Prop} (env : Env) (win : Window) (cam : Matrix)
    (objectAssets : ObjectAssets) (dt camSpeed camZoomSpeed : ℚ)
    (hCursor : ∀ w s, P w → P { w with input := { w.input with Cursor := some s } })
    (hInit : ∀ w, P w → P { w with input := { w.input with initialized := true } })
    (hAssets : ∀ w a, P w → P { w with input := { w.input with CursorAssets := a } })
    (hZoom : ∀ w z, P w → P { w with camZoom := z })
    (hEvent : ∀ w e, e.isMinor = true → P w → P { w with events := w.events ++ [e] })
    (hCmd : ∀ w g, P w → P { w with gameCommands := g })
    (hHit : ∀ w b, P w → P { w with drawHitBox := b })
    (hCam : ∀ w c, P w → P { w with camPos := c })
    (hChan : ∀ w c, P w → P { w with consoleInput := c }) :
    Inv P (HandleInput env win cam objectAssets dt camSpeed camZoomSpeed) := by
  unfold HandleInput
  repeat' (first
    | exact initHandler_inv _ _ _ hCursor hInit hAssets hZoom hEvent
    | exact handleConsole_inv _ _ _ hCursor hInit hChan
    | exact drawCursor_inv _ _ hEvent
    | exact handleButtons_inv _ _ _ hCursor hInit hEvent hCmd
    | exact handleKeys_inv _ _ _ hCmd hHit
    | exact moveCamera_inv _ _ _ hCam
    | exact inv_pure _
    | refine inv_bind ?_ (fun _ => ?_))

theorem minor_append {E : List Event} {w : World} {e : Event} (he : e.isMinor = true)
    (h : ∃ es, w.events = E ++ es ∧ ∀ x ∈ es, x.isMinor = true) :
    ∃ es, w.events ++ [e] = E ++ es ∧ ∀ x ∈ es, x.isMinor = true := by
  obtain ⟨es, h1, h2⟩ := h
  refine ⟨es ++ [e], by rw [h1, List.append_assoc], ?_⟩
  intro x hx
  rcases List.mem_append.mp hx with hx | hx
  · exact h2 x hx
  · rw [List.mem_singleton.mp hx]
    exact he

theorem HandleInput_events (env : Env) (win : Window) (cam : Matrix)
    (objectAssets : ObjectAssets) (dt camSpeed camZoomSpeed : ℚ) (w : World) :
    ∃ es, (HandleInput env win cam objectAssets dt camSpeed camZoomSpeed w).world.events
        = w.events ++ es ∧ ∀ x ∈ es, x.isMinor = true :=
  HandleInput_inv (P := fun x => ∃ es, x.events = w.events ++ es ∧ ∀ y ∈ es, y.isMinor = true)
    env win cam objectAssets dt camSpeed camZoomSpeed
    (fun _ _ h => h) (fun _ h => h) (fun _ _ h => h) (fun _ _ h => h)
    (fun _ _ he h => minor_append he h)
    (fun _ _ h => h) (fun _ _ h => h) (fun _ _ h => h) (fun _ _ h => h) w
    ⟨[], (List.append_nil _).symm, fun _ hx => absurd hx (List.not_mem_nil _)⟩

theorem HandleInput_winDestroyed (env : Env) (win : Window) (cam : Matrix)
    (objectAssets : ObjectAssets) (dt camSpeed camZoomSpeed : ℚ) (w : World) :
    (HandleInput env win cam objectAssets dt camSpeed camZoomSpeed w).world.winDestroyed
      = w.winDestroyed :=
  HandleInput_inv (P := fun x => x.winDestroyed = w.winDestroyed)
    env win cam objectAssets dt camSpeed camZoomSpeed
    (fun _ _ h => h) (fun _ h => h) (fun _ _ h => h) (fun _ _ h => h) (fun _ _ _ h => h)
    (fun _ _ h => h) (fun _ _ h => h) (fun _ _ h => h) (fun _ _ h => h) w rfl

theorem drawCursor_ok_cursor {win : Window} {cam : Matrix} {w w1 : World}
    (h : drawCursor win cam w = .ok () w1) (hM : win.MouseInsideWindow = true)
    (hC : win.Pressed .KeyLeftControl = false) : w1.input.Cursor.isSome = true := by
  unfold drawCursor cursorDraw at h
  simp only [hM, hC, if_true, Bool.not_false, bind_apply, emit, modifyWorld, getWorld] at h
  cases hc : w.input.Cursor with
  | none =>
    simp only [hc] at h
    cases h
  | some s =>
    simp only [hc] at h
    cases h
    exact Option.isSome_iff_exists.mpr ⟨s, hc⟩

theorem HandleInput_cursor {env : Env} {win : Window} {cam : Matrix}
    {objectAssets : ObjectAssets} {dt camSpeed camZoomSpeed : ℚ} {w w2 : World} {log : Entries}
    (h : HandleInput env win cam objectAssets dt camSpeed camZoomSpeed w = .ok log w2)
    (hM : win.MouseInsideWindow = true) (hC : win.Pressed .KeyLeftControl = false) :
    w2.input.Cursor.isSome = true := by
  obtain ⟨log0, wa, wb, wc, wd, we, _, _, h3, h4, h5, h6⟩ := HandleInput_eq_ok.mp h
  have hc := drawCursor_ok_cursor h3 hM hC
  have hd : wd.input.Cursor.isSome = true :=
    inv_of_ok (handleButtons_inv (P := fun x => x.input.Cursor.isSome = true) env win cam
      (fun _ _ _ => rfl) (fun _ h => h) (fun _ _ _ h => h) (fun _ _ h => h)) hc h4
  have he : we.input.Cursor.isSome = true :=
    inv_of_ok (handleKeys_inv (P := fun x => x.input.Cursor.isSome = true) env win cam
      (fun _ _ h => h) (fun _ _ h => h)) hd h5
  exact inv_of_ok (moveCamera_inv (P := fun x => x.input.Cursor.isSome = true) win dt camSpeed
      (fun _ _ h => h)) he h6

theorem drawCursor_ok (win : Window) (cam : Matrix) (w : World)
    (h : win.MouseInsideWindow = true → win.Pressed .KeyLeftControl = false →
      w.input.Cursor.isSome = true) :
    ∃ es, drawCursor win cam w = .ok () { w with events := w.events ++ es } ∧
      ∀ x ∈ es, x.isMinor = true := by
  unfold drawCursor cursorDraw
  cases hM : win.MouseInsideWindow with
  | false =>
    refine ⟨[.SetCursorVisible true], rfl, ?_⟩
    intro x hx
    rw [List.mem_singleton.mp hx]
    rfl
  | true =>
    cases hC : win.Pressed .KeyLeftControl with
    | true =>
      refine ⟨[], ?_, fun _ hx => absurd hx (List.not_mem_nil _)⟩
      simp only [if_true, Bool.not_true, Bool.false_eq_true, if_false, List.append_nil]
      rfl
    | false =>
      obtain ⟨s, hs⟩ := Option.isSome_iff_exists.mp (h hM hC)
      refine ⟨[.SetCursorVisible false, .CursorDraw s (cam.Unproject win.MousePosition)], ?_, ?_⟩
      · simp only [if_true, Bool.not_false, bind_apply, emit, modifyWorld, getWorld, hs,
          List.append_assoc, List.singleton_append]
      · intro x hx
        rcases List.mem_cons.mp hx with hx | hx
        · rw [hx]
          rfl
        · rw [List.mem_singleton.mp hx]
          rfl

theorem scanLog_eq (env : Env) (log : Entries) (w : World) :
    scanLog env log w = .ok () { w with
      events := w.events ++ scanEvents env log,
      winDestroyed := w.winDestroyed || hasSentinel env log } := by
  induction log generalizing w with
  | nil =>
    show Res.ok () w = _
    cases w
    simp [scanEvents, hasSentinel]
  | cons entry rest ih =>
    unfold scanLog
    by_cases hs : entry.GetMessage = env.Stop
    · simp only [hs, if_true, bind_apply, emit, modifyWorld, ih, scanEvents, hasSentinel,
        List.any_cons, beq_self_eq_true, Bool.true_or, Bool.or_true, List.append_assoc,
        List.cons_append, List.nil_append, List.singleton_append]
    · have hb : (entry.GetMessage == env.Stop) = false := beq_false_of_ne hs
      simp only [hs, if_false, bind_apply, emit, modifyWorld, ih, scanEvents, hasSentinel,
        List.any_cons, hb, Bool.false_or, List.append_assoc, List.cons_append,
        List.nil_append, List.singleton_append, pure_apply]

theorem afterInput_spec (env : Env) (inp : TickInput) (cam : Matrix) (log : Entries)
    (w1 : World)
    (hdraw : inp.win.MouseInsideWindow = true → inp.win.Pressed .KeyLeftControl = false →
      w1.input.Cursor.isSome = true) :
    ∃ esDraw esTitle,
      afterInput env inp cam log w1 = .ok log (afterInput env inp cam log w1).world ∧
      (afterInput env inp cam log w1).world.events = w1.events ++
        ([Event.UpdateGUI, Event.ExecuteCommands, Event.Wait, Event.UpdateAllObjects, Event.Wait,
          Event.Clear, Event.DrawAllObjects, Event.Wait, Event.DrawGUI] ++ esDraw ++
        [Event.Update] ++ esTitle ++ [Event.ScanLog] ++ scanEvents env log) ∧
      (∀ x ∈ esDraw, x.isMinor = true) ∧ (∀ x ∈ esTitle, x.isMinor = true) ∧
      (afterInput env inp cam log w1).world.winDestroyed
        = (w1.winDestroyed || hasSentinel env log) := by
  unfold afterInput
  simp only [bind_apply, emit, modifyWorld]
  obtain ⟨esDraw, hd, hm⟩ := drawCursor_ok inp.win cam
    { w1 with
      gameCommands := env.executeCommands w1.gameCommands,
      events := w1.events ++ [Event.UpdateGUI] ++ [Event.ExecuteCommands] ++ [Event.Wait] ++
        [Event.UpdateAllObjects] ++ [Event.Wait] ++ [Event.Clear] ++ [Event.DrawAllObjects] ++
        [Event.Wait] ++ [Event.DrawGUI] } hdraw
  rw [hd]
  cases hsec : inp.secondElapsed with
  | false =>
    refine ⟨esDraw, [], ?_⟩
    simp only [Bool.false_eq_true, if_false, pure_apply, bind_apply, emit, modifyWorld,
      scanLog_eq, Res.world, List.append_assoc, List.singleton_append, List.cons_append,
      List.nil_append, List.append_nil, true_and]
    exact ⟨hm, fun _ hx => absurd hx (List.not_mem_nil _), trivial⟩
  | true =>
    refine ⟨esDraw, [Event.SetTitle (w1.frames + 1)], ?_⟩
    simp only [if_true, getWorld, bind_apply, emit, modifyWorld, scanLog_eq, pure_apply,
      Res.world, List.append_assoc, List.singleton_append, List.cons_append, List.nil_append,
      List.append_nil, true_and]
    refine ⟨hm, ?_, trivial⟩
    intro x hx
    rw [List.mem_singleton.mp hx]
    rfl

theorem tick_eq (env : Env) (objectAssets : ObjectAssets) (inp : TickInput) (w : World) :
    tick env objectAssets inp w =
      (HandleInput env inp.win (tickCam env inp w) objectAssets inp.dt 500 (12 / 10) >>=
        afterInput env inp (tickCam env inp w)) (tickEntry inp w) :=
  rfl

theorem deliverTo_events (arrival : Option ITxTopic) (w : World) :
    (deliverTo arrival w).events = w.events := by
  unfold deliverTo
  split <;> rfl

theorem deliverTo_winDestroyed (arrival : Option ITxTopic) (w : World) :
    (deliverTo arrival w).winDestroyed = w.winDestroyed := by
  unfold deliverTo
  split <;> rfl

theorem tick_panic {env : Env} {objectAssets : ObjectAssets} {inp : TickInput} {w wH : World}
    {p : Panic}
    (h : HandleInput env inp.win (tickCam env inp w) objectAssets inp.dt 500 (12 / 10)
      (tickEntry inp w) = .panic p wH) :
    tick env objectAssets inp w = .panic p wH ∧
    ∃ esIn, wH.events = w.events ++ ([Event.SetMatrix, Event.HandleInput] ++ esIn) ∧
      ∀ x ∈ esIn, x.isMinor = true := by
  refine ⟨by rw [tick_eq, bind_apply, h], ?_⟩
  obtain ⟨esIn, h1, h2⟩ := HandleInput_events env inp.win (tickCam env inp w) objectAssets
    inp.dt 500 (12 / 10) (tickEntry inp w)
  rw [h] at h1
  refine ⟨esIn, ?_, h2⟩
  have h1b : wH.events = (tickEntry inp w).events ++ esIn := h1
  rw [h1b]
  simp only [tickEntry, deliverTo_events, List.append_assoc, List.singleton_append,
    List.cons_append, List.nil_append]

theorem tick_ok {env : Env} {objectAssets : ObjectAssets} {inp : TickInput} {w wH : World}
    {log : Entries}
    (h : HandleInput env inp.win (tickCam env inp w) objectAssets inp.dt 500 (12 / 10)
      (tickEntry inp w) = .ok log wH) :
    ∃ esIn esDraw esTitle W, tick env objectAssets inp w = .ok log W ∧
      W.events = w.events ++ tickEvents env log esIn esDraw esTitle ∧
      (∀ x ∈ esIn, x.isMinor = true) ∧ (∀ x ∈ esDraw, x.isMinor = true) ∧
      (∀ x ∈ esTitle, x.isMinor = true) ∧
      W.winDestroyed = (w.winDestroyed || hasSentinel env log) := by
  obtain ⟨esIn, h1, h2⟩ := HandleInput_events env inp.win (tickCam env inp w) objectAssets
    inp.dt 500 (12 / 10) (tickEntry inp w)
  have h3 := HandleInput_winDestroyed env inp.win (tickCam env inp w) objectAssets
    inp.dt 500 (12 / 10) (tickEntry inp w)
  rw [h] at h1 h3
  obtain ⟨esDraw, esTitle, h4, h5, h6, h7, h8⟩ :=
    afterInput_spec env inp (tickCam env inp w) log wH (fun hM hC => HandleInput_cursor h hM hC)
  refine ⟨esIn, esDraw, esTitle, _, by rw [tick_eq, bind_apply, h]; exact h4, ?_, h2, h6, h7, ?_⟩
  · have h1b : wH.events = (tickEntry inp w).events ++ esIn := h1
    rw [h5, h1b]
    simp only [tickEntry, tickEvents, deliverTo_events, List.append_assoc,
      List.singleton_append, List.cons_append, List.nil_append]
  · have h3b : wH.winDestroyed = (deliverTo inp.arrival w).winDestroyed := h3
    rw [h8, h3b, deliverTo_winDestroyed]

theorem tick_ok_inv {env : Env} {objectAssets : ObjectAssets} {inp : TickInput} {w w1 : World}
    {log : Entries} (h : tick env objectAssets inp w = .ok log w1) :
    ∃ wH, HandleInput env inp.win (tickCam env inp w) objectAssets inp.dt 500 (12 / 10)
      (tickEntry inp w) = .ok log wH := by
  rw [tick_eq] at h
  obtain ⟨log0, wH, h1, h2⟩ := bind_eq_ok.mp h
  obtain ⟨_, _, h3, _⟩ := afterInput_spec env inp (tickCam env inp w) log0 wH
    (fun hM hC => HandleInput_cursor h1 hM hC)
  rw [h3] at h2
  cases h2
  exact ⟨wH, h1⟩

/-! ## Events of an iteration and the loop -/

theorem minor_not_phase {es : List Event} (h : ∀ x ∈ es, x.isMinor = true) :
    es.filter Event.isPhase = [] := by
  rw [List.filter_eq_nil_iff]
  intro x hx
  have := h x hx
  cases x <;> simp_all [Event.isMinor, Event.isPhase]

theorem minor_not_work {es : List Event} (h : ∀ x ∈ es, x.isMinor = true) :
    ∀ x ∈ es, x.isWork = false := by
  intro x hx
  have := h x hx
  cases x <;> simp_all [Event.isMinor, Event.isWork]

theorem minor_not_destroy {es : List Event} (h : ∀ x ∈ es, x.isMinor = true) :
    Event.Destroy ∉ es := by
  intro hx
  have := h _ hx
  simp [Event.isMinor] at this

theorem scanEvents_not_phase (env : Env) (log : Entries) :
    (scanEvents env log).filter Event.isPhase = [] := by
  induction log with
  | nil => rfl
  | cons entry rest ih =>
    unfold scanEvents
    by_cases hs : entry.GetMessage = env.Stop
    · simp [hs, ih, Event.isPhase]
    · simp [hs, ih, Event.isPhase]

theorem scanEvents_not_work (env : Env) (log : Entries) :
    ∀ x ∈ scanEvents env log, x.isWork = false := by
  induction log with
  | nil =>
    intro x hx
    cases hx
  | cons entry rest ih =>
    intro x hx
    unfold scanEvents at hx
    by_cases hs : entry.GetMessage = env.Stop
    · simp only [hs, if_true, List.cons_append, List.nil_append, List.mem_cons] at hx
      rcases hx with rfl | rfl | rfl | hx
      · rfl
      · rfl
      · rfl
      · exact ih x hx
    · simp only [hs, if_false, List.cons_append, List.nil_append, List.mem_cons] at hx
      rcases hx with rfl | hx
      · rfl
      · exact ih x hx

theorem scanEvents_no_destroy (env : Env) (log : Entries) (h : hasSentinel env log = false) :
    Event.Destroy ∉ scanEvents env log := by
  induction log with
  | nil =>
    intro hx
    cases hx
  | cons entry rest ih =>
    unfold hasSentinel at h
    rw [List.any_cons, Bool.or_eq_false_iff] at h
    have hs : ¬ entry.GetMessage = env.Stop := fun e => by
      rw [e] at h
      simp at h
    unfold scanEvents
    simp only [hs, if_false, List.cons_append, List.nil_append, List.mem_cons, not_or]
    refine ⟨?_, ih h.2⟩
    intro e
    cases e

theorem scanEvents_sentinel (env : Env) (log : Entries) (h : hasSentinel env log = true) :
    ∃ a b, scanEvents env log = a ++ [Event.Sleep 2, Event.Destroy] ++ b ∧
      (∀ x ∈ a, x.isWork = false) ∧ ∀ x ∈ b, x.isWork = false := by
  induction log with
  | nil => cases h
  | cons entry rest ih =>
    by_cases hs : entry.GetMessage = env.Stop
    · refine ⟨[Event.Printf ("debugLog: " ++ entry.GetMessage)], scanEvents env rest, ?_, ?_,
        scanEvents_not_work env rest⟩
      · simp [scanEvents, hs]
      · intro x hx
        rw [List.mem_singleton.mp hx]
        rfl
    · unfold hasSentinel at h
      rw [List.any_cons] at h
      have hb : (entry.GetMessage == env.Stop) = false := beq_false_of_ne hs
      rw [hb, Bool.false_or] at h
      obtain ⟨a, b, h1, h2, h3⟩ := ih h
      refine ⟨Event.Printf ("debugLog: " ++ entry.GetMessage) :: a, b, ?_, ?_, h3⟩
      · simp [scanEvents, hs, h1]
      · intro x hx
        rcases List.mem_cons.mp hx with rfl | hx
        · rfl
        · exact h2 x hx

theorem tickEvents_phases (env : Env) (log : Entries) (esIn esDraw esTitle : List Event)
    (h1 : ∀ x ∈ esIn, x.isMinor = true) (h2 : ∀ x ∈ esDraw, x.isMinor = true)
    (h3 : ∀ x ∈ esTitle, x.isMinor = true) :
    (tickEvents env log esIn esDraw esTitle).filter Event.isPhase =
      [Event.HandleInput, Event.ExecuteCommands, Event.Wait, Event.UpdateAllObjects, Event.Wait,
        Event.Clear, Event.DrawAllObjects, Event.Wait, Event.ScanLog] := by
  unfold tickEvents
  simp only [List.filter_append, minor_not_phase h1, minor_not_phase h2, minor_not_phase h3,
    scanEvents_not_phase]
  rfl

theorem App_closed (env : Env) (objectAssets : ObjectAssets) (inputs : List TickInput)
    (w : World) (h : Closed env w = true) : App env objectAssets inputs w = .ok () w := by
  cases inputs with
  | nil => rfl
  | cons inp rest =>
    unfold App
    simp only [h, if_true]

theorem App_cons_open (env : Env) (objectAssets : ObjectAssets) (inp : TickInput)
    (rest : List TickInput) (w : World) (h : Closed env w = false) :
    App env objectAssets (inp :: rest) w =
      match tick env objectAssets inp w with
      | .ok _ w1 => App env objectAssets rest w1
      | .panic p w1 => .panic p w1 := by
  simp only [App, h, Bool.false_eq_true, if_false]

theorem App_append (env : Env) (objectAssets : ObjectAssets) (pre post : List TickInput)
    (w0 : World) :
    App env objectAssets (pre ++ post) w0 =
      match App env objectAssets pre w0 with
      | .ok _ w => App env objectAssets post w
      | .panic p w => .panic p w := by
  induction pre generalizing w0 with
  | nil => rfl
  | cons inp rest ih =>
    cases hc : Closed env w0 with
    | true =>
      rw [App_closed env objectAssets _ w0 hc, App_closed env objectAssets _ w0 hc]
      exact (App_closed env objectAssets post w0 hc).symm
    | false =>
      rw [List.cons_append, App_cons_open env objectAssets inp (rest ++ post) w0 hc,
        App_cons_open env objectAssets inp rest w0 hc]
      cases tick env objectAssets inp w0 with
      | ok log w1 => exact ih w1
      | panic p w1 => rfl

/-! ## USB discovery -/

theorem closeDevices_closeCalls (devs : List Device) (s : UsbState) :
    (closeDevices devs s).closeCalls = s.closeCalls ++ devs.map (fun d => d.handle) := by
  induction devs generalizing s with
  | nil => simp [closeDevices]
  | cons d ds ih =>
    show (closeDevices ds (d.Close s)).closeCalls = _
    rw [ih]
    simp [Device.Close]

theorem closeDevices_ctxClosed (devs : List Device) (s : UsbState) :
    (closeDevices devs s).ctxClosed = s.ctxClosed := by
  induction devs generalizing s with
  | nil => rfl
  | cons d ds ih =>
    show (closeDevices ds (d.Close s)).ctxClosed = _
    rw [ih]
    rfl

theorem closeDevices_openHandles (devs : List Device) (s : UsbState) :
    (closeDevices devs s).openHandles =
      s.openHandles.filter (fun h => !(devs.map (fun d => d.handle)).contains h) := by
  induction devs generalizing s with
  | nil => simp [closeDevices]
  | cons d ds ih =>
    show (closeDevices ds (d.Close s)).openHandles = _
    rw [ih]
    simp only [Device.Close, List.filter_filter, List.map_cons, List.contains_cons]
    apply List.filter_congr
    intro h _
    cases hd : (h == d.handle) <;> simp [hd, bne]

theorem closeDevices_all_closed (devs : List Device) (s : UsbState)
    (h : s.openHandles = devs.map (fun d => d.handle)) :
    (closeDevices devs s).openHandles = [] := by
  rw [closeDevices_openHandles, h, List.filter_eq_nil_iff]
  intro x hx
  simp only [Bool.not_eq_true, Bool.not_eq_false_eq_eq_true, Bool.not_not]
  simpa using hx

/-! ## The claims -/

/-- Claim C1, where the code departs from the claim. Two Pokes do not bring the cursor back to
idle. Starting from the initial state with the cursor asset in the catalog and
no key or button input: the call that consumes the first Poke returns with
the pressed cursor, and the later call that consumes the second Poke returns
with the pressed cursor again, which differs from the idle cursor
(`cursorToggle` is a local of `HandleInput`, false on every call). -/
theorem second_poke_leaves_cursor_pressed :
    (HandleInput Example.env Example.idleWindow Example.cam Example.cursorOnly (1 / 60) 500
      (12 / 10) { World.initial with consoleInput := [⟨"poke"⟩] }).isOk = true ∧
    Example.afterFirstPoke.input.Cursor = pressedCursor Example.cursorAsset ∧
    (HandleInput Example.env Example.idleWindow Example.cam Example.cursorOnly (1 / 60) 500
      (12 / 10) { Example.afterFirstPoke with consoleInput := [⟨"poke"⟩] }).isOk = true ∧
    Example.afterSecondPoke.input.Cursor = pressedCursor Example.cursorAsset ∧
    Example.afterSecondPoke.input.Cursor ≠ idleCursor Example.cursorAsset := by
  refine ⟨by decide, by decide, by decide, by decide, by decide⟩

/-- Claim C2, counterexample. A call that receives Stop still processes the input of the
tick: from the ready example state with Stop in the channel, with H just
pressed and the left button held, the call returns the log made of the
sentinel alone, yet the hit-box flag has gone from false to true and the
cursor from idle to pressed. -/
theorem stop_tick_still_processes_input :
    (HandleInput Example.env Example.busyWindow Example.cam Example.cursorOnly (1 / 60) 500
      (12 / 10) { Example.readyWorld with consoleInput := [⟨"stop"⟩] }).value?
      = some [⟨"stop"⟩] ∧
    Example.readyWorld.drawHitBox = false ∧
    (HandleInput Example.env Example.busyWindow Example.cam Example.cursorOnly (1 / 60) 500
      (12 / 10) { Example.readyWorld with consoleInput := [⟨"stop"⟩] }).world.drawHitBox
      = true ∧
    Example.readyWorld.input.Cursor = idleCursor Example.cursorAsset ∧
    (HandleInput Example.env Example.busyWindow Example.cam Example.cursorOnly (1 / 60) 500
      (12 / 10) { Example.readyWorld with consoleInput := [⟨"stop"⟩] }).world.input.Cursor
      = pressedCursor Example.cursorAsset := by
  refine ⟨by decide, by decide, by decide, by decide, by decide⟩

/-- Claim C2, amended. A `HandleInput` call that receives a Stop message (Stop and Poke
being distinct topics) completes exactly when the same call on an empty
channel completes, and it then returns that call's log with the sentinel
appended as last entry, in that call's final state (same command table,
camera, hit-box flag and cursor) except that the channel holds the messages
that followed the Stop: `handleConsole` returns at once, the rest of the
input is processed as in any other tick. -/
theorem handleInput_stop_appends_sentinel (env : Env) (win : Window) (cam : Matrix)
    (objectAssets : ObjectAssets) (dt camSpeed camZoomSpeed : ℚ) (w : World)
    (msg : ITxTopic) (rest : List ITxTopic) (hchan : w.consoleInput = msg :: rest)
    (hstop : msg.GetTopicId = env.Stop) (hne : env.Poke ≠ env.Stop) :
    (∀ log w2,
      HandleInput env win cam objectAssets dt camSpeed camZoomSpeed w = .ok log w2 ↔
      ∃ log0 w0,
        HandleInput env win cam objectAssets dt camSpeed camZoomSpeed (w.withConsoleInput [])
          = .ok log0 w0 ∧
        log = log0 ++ [⟨env.Stop⟩] ∧ w2 = w0.withConsoleInput rest) ∧
    (∀ log w2,
      HandleInput env win cam objectAssets dt camSpeed camZoomSpeed w = .ok log w2 →
      log.getLast? = some ⟨env.Stop⟩) := by
  have key := HandleInput_stop_iff env win cam objectAssets dt camSpeed camZoomSpeed w msg rest
    hchan hstop hne
  refine ⟨key, ?_⟩
  intro log w2 h
  obtain ⟨log0, _, _, rfl, _⟩ := (key log w2).mp h
  simp

/-- Witness for the amended C2: in the ready example state with Stop in the channel and
the busy window, the call returns and its log ends with the sentinel. -/
theorem handleInput_stop_appends_sentinel_witness :
    Example.env.Poke ≠ Example.env.Stop ∧
    (HandleInput Example.env Example.busyWindow Example.cam Example.cursorOnly (1 / 60) 500
      (12 / 10) { Example.readyWorld with consoleInput := [⟨"stop"⟩] }).isOk = true ∧
    (HandleInput Example.env Example.busyWindow Example.cam Example.cursorOnly (1 / 60) 500
      (12 / 10) { Example.readyWorld with consoleInput := [⟨"stop"⟩] }).value?.bind
        List.getLast? = some ⟨"stop"⟩ := by
  have h := (handleInput_stop_appends_sentinel Example.env Example.busyWindow Example.cam
    Example.cursorOnly (1 / 60) 500 (12 / 10)
    { Example.readyWorld with consoleInput := [⟨"stop"⟩] } ⟨"stop"⟩ [] rfl rfl
    (by decide)).2
  have hok : (HandleInput Example.env Example.busyWindow Example.cam Example.cursorOnly
      (1 / 60) 500 (12 / 10)
      { Example.readyWorld with consoleInput := [⟨"stop"⟩] }).isOk = true := by decide
  refine ⟨by decide, hok, ?_⟩
  cases hr : HandleInput Example.env Example.busyWindow Example.cam Example.cursorOnly
      (1 / 60) 500 (12 / 10) { Example.readyWorld with consoleInput := [⟨"stop"⟩] } with
  | ok log w2 => exact h log w2 hr
  | panic p w2 =>
    rw [hr] at hok
    cases hok

/-- Claim C4, where the code departs from the claim. A missing cursor asset is fatal for most
window states. On the first call with an empty catalog: with the mouse inside
the window and left control up, `HandleInput` panics on the nil cursor; with
left control held it panics on the frame index; it returns the log with the
missing-asset entry when the mouse is outside the window and no key or button
is active. -/
theorem missing_cursor_asset_panics :
    (HandleInput Example.env Example.mouseInside Example.cam [] (1 / 60) 500 (12 / 10)
      World.initial).panic? = some .nilDereference ∧
    (HandleInput Example.env Example.controlHeld Example.cam [] (1 / 60) 500 (12 / 10)
      World.initial).panic? = some .indexOutOfRange ∧
    (HandleInput Example.env Example.idleWindow Example.cam [] (1 / 60) 500 (12 / 10)
      World.initial).value? = some [⟨" is not in assests"⟩] := by
  refine ⟨by decide, by decide, by decide⟩

/-- Claim C9, where the code departs from the claim. The catalog `cursorSecond` holds the cursor
asset, at its second position; the first `HandleInput` call returns having
bound `CursorAssets` to the first element of the catalog, whose description
is not the cursor description (the predicate given to `IndexFunc` ignores the
element it is asked about). -/
theorem cursor_lookup_binds_first_asset :
    IObjectAsset.animation Example.cursorAsset ∈ Example.cursorSecond ∧
    Example.cursorAsset.Description = Example.env.CursorDesription ∧
    (HandleInput Example.env Example.idleWindow Example.cam Example.cursorSecond (1 / 60) 500
      (12 / 10) World.initial).isOk = true ∧
    (HandleInput Example.env Example.idleWindow Example.cam Example.cursorSecond (1 / 60) 500
      (12 / 10) World.initial).world.input.CursorAssets = Example.cardAsset ∧
    Example.cardAsset.Description ≠ Example.env.CursorDesription := by
  refine ⟨by decide, by decide, by decide, by decide, by decide⟩

/-- Claim C8. Camera pan to the east. In a `HandleInput` call during which `D` is
held and `A`, `S`, `W` are not, the camera X coordinate grows by exactly
`camSpeed * dt` and the Y coordinate is unchanged, for every camera position,
speed and elapsed time (exact numbers, no clamping); the call does return
whenever the handler is ready; and with `dt = 0.1`, `camSpeed = 500` the X
coordinate grows by exactly 50. -/
theorem handleInput_east_pan (env : Env) (win : Window) (cam : Matrix)
    (objectAssets : ObjectAssets) (dt camSpeed camZoomSpeed : ℚ) (w : World)
    (hD : win.Pressed .KeyD = true) (hA : win.Pressed .KeyA = false)
    (hS : win.Pressed .KeyS = false) (hW : win.Pressed .KeyW = false) :
    (∀ log w2, HandleInput env win cam objectAssets dt camSpeed camZoomSpeed w = .ok log w2 →
      w2.camPos.X = w.camPos.X + camSpeed * dt ∧ w2.camPos.Y = w.camPos.Y) ∧
    (Ready w →
      ∃ log w2, HandleInput env win cam objectAssets dt camSpeed camZoomSpeed w = .ok log w2) ∧
    (dt = 1 / 10 → camSpeed = 500 → ∀ log w2,
      HandleInput env win cam objectAssets dt camSpeed camZoomSpeed w = .ok log w2 →
      w2.camPos.X = w.camPos.X + 50) := by
  have key : ∀ log w2,
      HandleInput env win cam objectAssets dt camSpeed camZoomSpeed w = .ok log w2 →
      w2.camPos.X = w.camPos.X + camSpeed * dt ∧ w2.camPos.Y = w.camPos.Y := by
    intro log w2 h
    obtain ⟨we, hcam, hmove⟩ := HandleInput_camPos h
    rw [moveCamera_east win dt camSpeed we hD hA hS hW] at hmove
    cases hmove
    exact ⟨by rw [← hcam], by rw [← hcam]⟩
  refine ⟨key, ?_, ?_⟩
  · intro hR
    obtain ⟨log, w2, h, _⟩ := HandleInput_safe env win cam objectAssets dt camSpeed camZoomSpeed w hR
    exact ⟨log, w2, h⟩
  · intro hdt hcs log w2 h
    rw [(key log w2 h).1, hdt, hcs]
    norm_num

/-- Witness for C8: from the ready example state, with `D` held for 0.1 s at speed 500,
the call returns and the camera moves from (0, 0) to (50, 0). -/
theorem handleInput_east_pan_witness :
    Example.holdD.Pressed .KeyD = true ∧ Ready Example.readyWorld ∧
    (HandleInput Example.env Example.holdD Example.cam [] (1 / 10) 500 (12 / 10)
        Example.readyWorld).isOk = true ∧
    (HandleInput Example.env Example.holdD Example.cam [] (1 / 10) 500 (12 / 10)
        Example.readyWorld).world.camPos = ⟨50, 0⟩ := by
  have h := handleInput_east_pan Example.env Example.holdD Example.cam [] (1 / 10) 500 (12 / 10)
    Example.readyWorld rfl rfl rfl rfl
  have hR : Ready Example.readyWorld := by decide
  obtain ⟨log, w2, hok⟩ := h.2.1 hR
  have hx := h.2.2 rfl rfl log w2 hok
  have hy := (h.1 log w2 hok).2
  rw [hok]
  refine ⟨rfl, hR, rfl, ?_⟩
  show w2.camPos = ⟨50, 0⟩
  have e : w2.camPos = ⟨w2.camPos.X, w2.camPos.Y⟩ := rfl
  rw [e, hx, hy]
  show (⟨(0 : ℚ) + 50, 0⟩ : Vec) = ⟨50, 0⟩
  rw [zero_add]

/-- Claim C5. One `HandleInput` call takes at most one message from the control
channel and never waits for one. On an empty channel `handleConsole` returns
at once with the log it was given and the state untouched (so no cursor
change); on a channel holding `msg :: rest` it leaves exactly `rest`; a
`HandleInput` call leaves the channel as it was (only when it panics before
reading it) or without its first message, and a call that returns has taken
exactly the first message when there was one. -/
theorem handleInput_takes_at_most_one_message (env : Env) (win : Window) (cam : Matrix)
    (objectAssets : ObjectAssets) (dt camSpeed camZoomSpeed : ℚ) (w : World) :
    (w.consoleInput = [] → ∀ someFlag debugLog,
      handleConsole env someFlag debugLog w = .ok debugLog w) ∧
    (∀ msg rest someFlag debugLog, w.consoleInput = msg :: rest →
      (handleConsole env someFlag debugLog w).world.consoleInput = rest) ∧
    ((HandleInput env win cam objectAssets dt camSpeed camZoomSpeed w).world.consoleInput
        = w.consoleInput ∨
      (HandleInput env win cam objectAssets dt camSpeed camZoomSpeed w).world.consoleInput
        = w.consoleInput.tail) ∧
    (∀ log w2, HandleInput env win cam objectAssets dt camSpeed camZoomSpeed w = .ok log w2 →
      w2.consoleInput = w.consoleInput.tail) := by
  refine ⟨?_, ?_, ?_, ?_⟩
  · intro h someFlag debugLog
    exact handleConsole_nil env someFlag debugLog w h
  · intro msg rest someFlag debugLog h
    rw [handleConsole_channel, h]
    rfl
  · rcases HandleInput_channel env win cam objectAssets dt camSpeed camZoomSpeed w with h | h
    · exact Or.inl h.2
    · exact Or.inr h
  · intro log w2 h
    rcases HandleInput_channel env win cam objectAssets dt camSpeed camZoomSpeed w with h1 | h1
    · rw [h] at h1
      exact absurd h1.1 (by simp [Res.isOk])
    · rw [h] at h1
      exact h1

/-- Witness for C5: with two messages buffered in the ready example state,
`handleConsole` leaves exactly the second one. -/
theorem handleInput_takes_at_most_one_message_witness :
    (handleConsole Example.env false []
      { Example.readyWorld with consoleInput := [⟨"poke"⟩, ⟨"stop"⟩] }).world.consoleInput
      = [⟨"stop"⟩] :=
  (handleInput_takes_at_most_one_message Example.env Example.idleWindow Example.cam []
    (1 / 60) 500 (12 / 10)
    { Example.readyWorld with consoleInput := [⟨"poke"⟩, ⟨"stop"⟩] }).2.1
    ⟨"poke"⟩ [⟨"stop"⟩] false [] rfl

/-- Towards C3, under an assumption on the window library. Shutdown on the Stop
sentinel, taking `win.Closed()` to report a destroyed window as closed (`hC`;
the loop has no exit of its own after `win.Destroy()`, and the sources do not
fix what `Closed` reports then).
In any run of the loop that reaches an iteration with the window open, if
`HandleInput` returns in that iteration a log `log`, the iteration completes,
and: when `log` holds an entry equal to the sentinel, the iteration's events
contain `Sleep 2` immediately followed by `Destroy`, after the
`ExecuteCommands`, `UpdateAllObjects` and `DrawAllObjects` calls of that
iteration and with no such call after them, the window is destroyed, and the
run ends with that iteration whatever inputs follow; when `log` holds no
sentinel, the iteration raises no `Destroy` and the window is not destroyed. -/
theorem app_shutdown_on_sentinel (env : Env) (objectAssets : ObjectAssets)
    (pre rest : List TickInput) (inp : TickInput) (w0 w wH : World) (log : Entries)
    (hC : env.closedAfterDestroy = true)
    (hpre : App env objectAssets pre w0 = .ok () w) (hopen : Closed env w = false)
    (hin : HandleInput env inp.win (tickCam env inp w) objectAssets inp.dt 500 (12 / 10)
      (tickEntry inp w) = .ok log wH) :
    ∃ w1, tick env objectAssets inp w = .ok log w1 ∧
      (hasSentinel env log = true →
        (∃ a b, w1.events = w.events ++ a ++ [Event.Sleep 2, Event.Destroy] ++ b ∧
          Event.ExecuteCommands ∈ a ∧ Event.UpdateAllObjects ∈ a ∧ Event.DrawAllObjects ∈ a ∧
          ∀ e ∈ b, e.isWork = false) ∧
        w1.winDestroyed = true ∧
        App env objectAssets (pre ++ inp :: rest) w0 = .ok () w1) ∧
      (hasSentinel env log = false →
        w1.winDestroyed = false ∧ ∃ es, w1.events = w.events ++ es ∧ Event.Destroy ∉ es) := by
  obtain ⟨esIn, esDraw, esTitle, w1, ht, hev, hIn, hDraw, hTitle, hdes⟩ := tick_ok hin
  have hw : w.winDestroyed = false := by
    cases hd : w.winDestroyed with
    | false => rfl
    | true =>
      unfold Closed at hopen
      rw [hd, if_pos rfl, hC] at hopen
      cases hopen
  refine ⟨w1, ht, ?_, ?_⟩
  · intro hs
    have hd1 : w1.winDestroyed = true := by rw [hdes, hs, Bool.or_true]
    refine ⟨?_, hd1, ?_⟩
    · obtain ⟨a, b, hab, _, hb⟩ := scanEvents_sentinel env log hs
      refine ⟨[Event.SetMatrix, Event.HandleInput] ++ esIn ++
        [Event.UpdateGUI, Event.ExecuteCommands, Event.Wait, Event.UpdateAllObjects, Event.Wait,
          Event.Clear, Event.DrawAllObjects, Event.Wait, Event.DrawGUI] ++ esDraw ++
        [Event.Update] ++ esTitle ++ [Event.ScanLog] ++ a, b, ?_, ?_, ?_, ?_, hb⟩
      · rw [hev, tickEvents, hab]
        simp only [List.append_assoc]
      · simp
      · simp
      · simp
    · rw [App_append, hpre]
      show App env objectAssets (inp :: rest) w = _
      rw [App_cons_open env objectAssets inp rest w hopen, ht]
      show App env objectAssets rest w1 = _
      apply App_closed
      unfold Closed
      rw [hd1, if_pos rfl, hC]
  · intro hs
    refine ⟨by rw [hdes, hs, hw]; rfl, tickEvents env log esIn esDraw esTitle, hev, ?_⟩
    unfold tickEvents
    have h1 := minor_not_destroy hIn
    have h2 := minor_not_destroy hDraw
    have h3 := minor_not_destroy hTitle
    have h4 := scanEvents_no_destroy env log hs
    simp [h1, h2, h3, h4]

/-- Instance of the conditional statement on C3: from the initial state with the cursor asset in the catalog, a
run whose first iteration receives Stop ends with that iteration, although a
further input is available; the window is destroyed. -/
theorem app_shutdown_on_sentinel_witness :
    Example.env.closedAfterDestroy = true ∧
    App Example.env Example.cursorOnly
      ([] ++ Example.quietTick (some ⟨"stop"⟩) :: [Example.quietTick none]) World.initial
      = .ok () (tick Example.env Example.cursorOnly (Example.quietTick (some ⟨"stop"⟩))
          World.initial).world ∧
    (tick Example.env Example.cursorOnly (Example.quietTick (some ⟨"stop"⟩))
      World.initial).world.winDestroyed = true := by
  obtain ⟨w1, ht, h1, _⟩ := app_shutdown_on_sentinel Example.env Example.cursorOnly []
    [Example.quietTick none] (Example.quietTick (some ⟨"stop"⟩)) World.initial World.initial
    (HandleInput Example.env (Example.quietTick (some ⟨"stop"⟩)).win
      (tickCam Example.env (Example.quietTick (some ⟨"stop"⟩)) World.initial)
      Example.cursorOnly (Example.quietTick (some ⟨"stop"⟩)).dt 500 (12 / 10)
      (tickEntry (Example.quietTick (some ⟨"stop"⟩)) World.initial)).world
    [⟨"stop"⟩] rfl rfl rfl rfl
  obtain ⟨_, hd, happ⟩ := h1 (by decide)
  rw [happ, ht]
  exact ⟨rfl, rfl, hd⟩

/-- Claim C6. Order of the phases in an iteration of the loop. Reading the events of an
iteration and keeping only the phase markers (`HandleInput`,
`ExecuteCommands`, `Wait`, `UpdateAllObjects`, `Clear`, `DrawAllObjects`,
`ScanLog`), an iteration that completes shows exactly `HandleInput`,
`ExecuteCommands`, `Wait`, `UpdateAllObjects`, `Wait`, `Clear`,
`DrawAllObjects`, `Wait`, `ScanLog`, in this order; an iteration that does not
complete is one whose `HandleInput` call panicked, and shows `HandleInput`
only. -/
theorem tick_phase_order (env : Env) (objectAssets : ObjectAssets) (inp : TickInput)
    (w : World) :
    ∃ es, (tick env objectAssets inp w).world.events = w.events ++ es ∧
      (((tick env objectAssets inp w).isOk = true ∧
          es.filter Event.isPhase =
            [Event.HandleInput, Event.ExecuteCommands, Event.Wait, Event.UpdateAllObjects,
              Event.Wait, Event.Clear, Event.DrawAllObjects, Event.Wait, Event.ScanLog]) ∨
        ((tick env objectAssets inp w).isOk = false ∧
          (HandleInput env inp.win (tickCam env inp w) objectAssets inp.dt 500 (12 / 10)
            (tickEntry inp w)).isOk = false ∧
          es.filter Event.isPhase = [Event.HandleInput])) := by
  cases hin : HandleInput env inp.win (tickCam env inp w) objectAssets inp.dt 500 (12 / 10)
      (tickEntry inp w) with
  | ok log wH =>
    obtain ⟨esIn, esDraw, esTitle, w1, ht, hev, hIn, hDraw, hTitle, _⟩ := tick_ok hin
    rw [ht]
    exact ⟨tickEvents env log esIn esDraw esTitle, hev,
      Or.inl ⟨rfl, tickEvents_phases env log esIn esDraw esTitle hIn hDraw hTitle⟩⟩
  | panic p wH =>
    obtain ⟨ht, esIn, hev, hIn⟩ := tick_panic hin
    rw [ht]
    refine ⟨[Event.SetMatrix, Event.HandleInput] ++ esIn, hev, Or.inr ⟨rfl, rfl, ?_⟩⟩
    rw [List.filter_append, minor_not_phase hIn]
    rfl

/-- Remark on C3: the end of the loop after `win.Destroy()` rests on what
`win.Closed()` reports afterwards. With a library that reports a destroyed
window as still open, the run of the instance above goes through a second
iteration and executes commands twice. -/
theorem app_runs_on_when_destroyed_window_reports_open :
    (App Example.envStillOpen Example.cursorOnly
      [Example.quietTick (some ⟨"stop"⟩), Example.quietTick none]
      World.initial).world.events.count Event.ExecuteCommands = 2 := by
  decide

/-- Claim C10. The success path of `FindDeviceWithVIDPID`. When enumeration opens at
least one device and reports no error, the call returns the first opened
device with a nil error, and by then `Close` has been called on every opened
device in turn, the returned one included, no handle is left open, and the
USB context is closed. -/
theorem find_success_returns_closed_device (bus : List BusDevice) (vid pid : Int)
    (d : Device) (ds : List Device)
    (h : OpenDevices (fun desc => desc.Vendor == ID vid && desc.Product == ID pid) bus 0
      = (d :: ds, none)) :
    (FindDeviceWithVIDPID bus vid pid).device = some d ∧
    (FindDeviceWithVIDPID bus vid pid).err = none ∧
    (FindDeviceWithVIDPID bus vid pid).state.closeCalls = (d :: ds).map (fun x => x.handle) ∧
    d.handle ∈ (FindDeviceWithVIDPID bus vid pid).state.closeCalls ∧
    (FindDeviceWithVIDPID bus vid pid).state.openHandles = [] ∧
    (FindDeviceWithVIDPID bus vid pid).state.ctxClosed = true := by
  have hcalls : (FindDeviceWithVIDPID bus vid pid).state.closeCalls
      = (d :: ds).map (fun x => x.handle) := by
    unfold FindDeviceWithVIDPID
    simp only [h, List.length_cons, Nat.succ_ne_zero, beq_iff_eq, if_false, ContextClose,
      closeDevices_closeCalls, List.nil_append]
  refine ⟨?_, ?_, hcalls, ?_, ?_, ?_⟩
  · unfold FindDeviceWithVIDPID
    simp only [h, List.length_cons, Nat.succ_ne_zero, beq_iff_eq, if_false, List.head?_cons]
  · unfold FindDeviceWithVIDPID
    simp only [h, List.length_cons, Nat.succ_ne_zero, beq_iff_eq, if_false]
  · rw [hcalls]
    exact List.mem_cons_self _ _
  · unfold FindDeviceWithVIDPID
    simp only [h, List.length_cons, Nat.succ_ne_zero, beq_iff_eq, if_false, ContextClose]
    exact closeDevices_all_closed _ _ rfl
  · unfold FindDeviceWithVIDPID
    simp only [h, List.length_cons, Nat.succ_ne_zero, beq_iff_eq, if_false, ContextClose]

/-- Witness for C10: on the bus with two matching devices (positions 1 and 2) the call
returns the device at position 1, after closing both. -/
theorem find_success_returns_closed_device_witness :
    (FindDeviceWithVIDPID Example.busTwoMatches 0x1234 0x5678).device
      = some ⟨1, ⟨0x1234, 0x5678⟩⟩ ∧
    (FindDeviceWithVIDPID Example.busTwoMatches 0x1234 0x5678).state.closeCalls = [1, 2] :=
  have h := find_success_returns_closed_device Example.busTwoMatches 0x1234 0x5678
    ⟨1, ⟨0x1234, 0x5678⟩⟩ [⟨2, ⟨0x1234, 0x5678⟩⟩] (by decide)
  ⟨h.1, h.2.2.1⟩

/-- Claim C7, where the code departs from the claim. On the bus whose two matching devices are
at positions 0 and 1 and whose second device cannot be opened, enumeration
returns the first device together with an error; `FindDeviceWithVIDPID` then
returns no device and the wrapped error, having called `Close` on no device:
handle 0 is still open when it returns. -/
theorem find_error_path_leaks_handle :
    FindDeviceWithVIDPID Example.busSecondFails 0x1234 0x5678 =
      { device := none, err := some (.failedToOpen (.enumeration 1)),
        state := { openHandles := [0], closeCalls := [], ctxClosed := true } } := by
  decide

/-- On the two paths without an enumeration error (no device found, or a device
returned), `FindDeviceWithVIDPID` leaves no handle open. -/
theorem find_without_error_leaves_none_open (bus : List BusDevice) (vid pid : Int)
    (h : (OpenDevices (fun desc => desc.Vendor == ID vid && desc.Product == ID pid) bus 0).2
      = none) :
    (FindDeviceWithVIDPID bus vid pid).state.openHandles = [] := by
  unfold FindDeviceWithVIDPID
  simp only [h]
  split <;> exact closeDevices_all_closed _ _ rfl

end GoRestUsbApi
